import Mathlib

/-!
# IRProximityArray

A shallow embedding of `IRProximityArray.cpp` / `IRProximityArray.h` (an array of up to
six binary IR proximity sensors that is fused into one directional reading) together
with theorems about its behaviour.

* `F32` models the C++ type `float` as IEEE-754 binary32 with round-to-nearest-even,
  every arithmetic operation being rounded on its own.
* `IRProximityArray` is the object state (the four data members of the class).
* Every method returns a `Result`: its return value, the object state afterwards, the
  events handed to `DispatchEvent` and the pins handed to `pinMode(_, INPUT)`.
* A read of `_sensors[i]` with `i` outside the array is undefined behaviour in C++;
  the embedding returns `none` there.
-/

/-! ## binary32 arithmetic -/

/-- Nearest natural number to the fraction `a / d`, a tie going to the even neighbour. -/
def rne (a d : Nat) : Nat :=
  let k := a / d
  let r := a % d
  if 2 * r < d then k
  else if d < 2 * r then k + 1
  else if k % 2 = 0 then k else k + 1

/-- Number of low bits that a magnitude `t` has beyond a 24-bit significand: the least
`s` with `t / 2 ^ s < 2 ^ 24`. The first argument is fuel (`t` itself is always enough);
big magnitudes are reduced sixteen bits at a time. -/
def excess : Nat → Nat → Nat
  | 0, _ => 0
  | fuel + 1, t =>
    if t < 2 ^ 24 then 0
    else if t < 2 ^ 40 then excess fuel (t / 2) + 1
    else excess fuel (t / 2 ^ 16) + 16

/-- Round the non-negative fraction `a / d`, counted in units of `2 ^ (-149)`, to the
nearest binary32 magnitude (again in units of `2 ^ (-149)`). Below `2 ^ 24` units the
spacing of binary32 is one unit (subnormals and the first normal binade); above, the
value keeps 24 significant bits. -/
def roundMag (a d : Nat) : Nat :=
  let t := a / d
  if t < 2 ^ 24 then rne a d
  else
    let s := excess t t
    rne a (d * 2 ^ s) * 2 ^ s

/-- A finite binary32 value `x`, stored as the integer `x * 2 ^ 149` (every finite
binary32 number is such a multiple). Both zeros are the one value `0`. Infinities and
NaN are not values of this type: an operation whose exact result has magnitude
`2 ^ 128` or more is outside the model (no value handled by `IRProximityArray` comes
near that size). -/
structure F32 where
  /-- The value in units of `2 ^ (-149)`. -/
  units : Int
deriving DecidableEq, Repr

namespace F32

/-- How many units of `2 ^ (-149)` make up `1.0`. -/
def ONE : Nat := 2 ^ 149

/-- The binary32 value nearest to `p / d` units. -/
def round (p : Int) (d : Nat) : F32 :=
  if p < 0 then ⟨-((roundMag p.natAbs d : Nat) : Int)⟩ else ⟨((roundMag p.natAbs d : Nat) : Int)⟩

/-- Conversion of an `int` to `float`. -/
def ofInt (n : Int) : F32 := round (n * (ONE : Int)) 1

/-- Addition `a + b` of `float`. -/
def add (a b : F32) : F32 := round (a.units + b.units) 1

/-- Subtraction `a - b` of `float`. -/
def sub (a b : F32) : F32 := round (a.units - b.units) 1

/-- Multiplication `a * b` of `float`. -/
def mul (a b : F32) : F32 := round (a.units * b.units) ONE

/-- Division `a / b` of `float`, for `b` other than zero (the two divisions of
`IRProximityArray.cpp` have a divisor of at least one). -/
def div (a b : F32) : F32 :=
  if b.units < 0 then round (-(a.units * (ONE : Int))) b.units.natAbs
  else round (a.units * (ONE : Int)) b.units.natAbs

/-- The rational number a value stands for. -/
def toRat (a : F32) : ℚ := (a.units : ℚ) / (ONE : ℚ)

instance : LE F32 := ⟨fun a b => a.units ≤ b.units⟩

instance : LT F32 := ⟨fun a b => a.units < b.units⟩

instance (a b : F32) : Decidable (a ≤ b) := inferInstanceAs (Decidable (a.units ≤ b.units))

instance (a b : F32) : Decidable (a < b) := inferInstanceAs (Decidable (a.units < b.units))

end F32

/-! ## The collaborators: GPIO and event dispatch -/

/-- The two levels `LOW` and `HIGH` that `digitalRead` returns. -/
inductive Level where
  | LOW
  | HIGH
deriving DecidableEq, Repr

/-- The state of the digital pins during one call of `Read`: what `digitalRead(pin)`
returns for each 8-bit pin number. -/
abbrev Gpio := Nat → Level

/-- Identifier of an event kind (`EVENT_ID` of `EventSource.h`). -/
abbrev EVENT_ID := Nat

/-- Modelled from the spec: the class `Event` of `EventSource.h` is missing from the
sources; an event "carries a fixed event-kind identifier and a float payload equal to
the new reading". -/
structure Event where
  /-- The event-kind identifier. -/
  id : EVENT_ID
  /-- The payload. -/
  value : F32
deriving DecidableEq, Repr

/-! ## The object state -/

/-- Maximum number of IR proximity sensors the component can handle. -/
def MAX_IR_SENSORS : Nat := 6

/-- The data members of `class IRProximityArray`. -/
structure IRProximityArray where
  /-- The member `uint8_t _sensors[MAX_IR_SENSORS]`: the pin of each sensor, ordered
  left-to-right. -/
  _sensors : Fin MAX_IR_SENSORS → Nat
  /-- The member `uint8_t _sensorCount`: actual number of sensors. -/
  _sensorCount : Nat
  /-- The member `float _lastReading`: the last reading value taken. -/
  _lastReading : F32
  /-- The member `float _delta`: the reading distance between adjacent sensors. -/
  _delta : F32

/-- What a method call produces: its return value, the object afterwards, the events
passed to `DispatchEvent` and the pins passed to `pinMode(pin, INPUT)`, both in call
order. -/
structure Result (α : Type) where
  /-- The return value. -/
  value : α
  /-- The object state after the call. -/
  self : IRProximityArray
  /-- The dispatched events. -/
  events : List Event
  /-- The pins configured as inputs. -/
  pinModes : List Nat

namespace IRProximityArray

/-- The constant `const float IRProximityArray::NO_DETECTION = -99;`. -/
def NO_DETECTION : F32 := F32.ofInt (-99)

/-- Conversion of an `int` to `uint8_t`. -/
def toUInt8 (n : Int) : Nat := (n % 256).toNat

/-- The method `int IRProximityArray::AddSensor(int pin)`. The quotient
`2.0 / max(_sensorCount - 1, 1)` is a `double` that is stored in the `float` `_delta`.
Where `double` has 32 bits (AVR) this is the `float` division; where it has 64 bits, the
quotient of two such integers rounded to `double` and then to `float` is again the
`float` quotient, so `F32.div` stands for both. -/
def AddSensor (self : IRProximityArray) (pin : Int) : Result Int :=
  let r : Result Int :=
    if h : self._sensorCount < MAX_IR_SENSORS then
      { value := (self._sensorCount : Int)
        self :=
          { self with
            _sensorCount := (self._sensorCount + 1) % 256
            _sensors := Function.update self._sensors ⟨self._sensorCount, h⟩ (toUInt8 pin) }
        events := []
        pinModes := [toUInt8 pin] }
    else
      { value := -1, self := self, events := [], pinModes := [] }
  { r with
    self :=
      { r.self with
        _delta := F32.div (F32.ofInt 2) (F32.ofInt (max ((r.self._sensorCount : Int) - 1) 1)) } }

/-- The method `void IRProximityArray::Reset()`. -/
def Reset (self : IRProximityArray) : Result Unit :=
  { value := (), self := { self with _lastReading := NO_DETECTION }, events := [], pinModes := [] }

/-- One pass through the body of the `for` loop of `Read` at index `i`, on the pair
`(reading, triggeredCount)`; `none` when `_sensors[i]` is outside the array. -/
def Read.body (self : IRProximityArray) (gpio : Gpio) (acc : F32 × Nat) (i : Nat) :
    Option (F32 × Nat) :=
  if h : i < MAX_IR_SENSORS then
    if self._sensors ⟨i, h⟩ = 0 then some acc
    else if gpio (self._sensors ⟨i, h⟩) = Level.LOW then
      some (F32.add acc.1 (F32.sub (F32.mul (F32.ofInt (i : Int)) self._delta) (F32.ofInt 1)),
        acc.2 + 1)
    else some acc
  else none

/-- The method `float IRProximityArray::Read()`. -/
def Read (self : IRProximityArray) (gpio : Gpio) : Option (Result F32) :=
  match (List.range self._sensorCount).foldlM (Read.body self gpio) (F32.ofInt 0, 0) with
  | none => none
  | some (reading, triggeredCount) =>
    let reading :=
      if triggeredCount > 0 then F32.div reading (F32.ofInt (triggeredCount : Int))
      else NO_DETECTION
    some { value := reading, self := self, events := [], pinModes := [] }

/-- The method `void IRProximityArray::Poll()`; `PROXIMITY_EVENT` is the event identifier that
`EventSource::GenerateEventID()` handed out at start-up. -/
def Poll (PROXIMITY_EVENT : EVENT_ID) (self : IRProximityArray) (gpio : Gpio) :
    Option (Result Unit) :=
  match self.Read gpio with
  | none => none
  | some r =>
    let reading := r.value
    if reading ≠ r.self._lastReading then
      some
        { value := ()
          self := { r.self with _lastReading := reading }
          events := r.events ++ [{ id := PROXIMITY_EVENT, value := reading }]
          pinModes := r.pinModes }
    else
      some { value := (), self := r.self, events := r.events, pinModes := r.pinModes }

/-- The statement `if (pin > 0) AddSensor(pin);` of the constructor. -/
def addIfPositive (r : Result Unit) (pin : Int) : Result Unit :=
  if pin > 0 then
    let a := r.self.AddSensor pin
    { value := (), self := a.self, events := r.events ++ a.events, pinModes := r.pinModes ++ a.pinModes }
  else r

/-- The constructor `IRProximityArray::IRProximityArray(ir1Pin, ..., ir6Pin)`. It never
assigns `_delta` itself: `delta0` is the indeterminate content of that member when the
constructor starts. -/
def construct (delta0 : F32) (ir1Pin ir2Pin ir3Pin ir4Pin ir5Pin ir6Pin : Int) :
    Result Unit :=
  let r0 : Result Unit :=
    { value := ()
      self := { _sensors := fun _ => 0, _sensorCount := 0, _lastReading := NO_DETECTION, _delta := delta0 }
      events := []
      pinModes := [] }
  addIfPositive (addIfPositive (addIfPositive (addIfPositive (addIfPositive (addIfPositive r0
    ir1Pin) ir2Pin) ir3Pin) ir4Pin) ir5Pin) ir6Pin

end IRProximityArray

namespace IRProximityArray

/-! ## Derived notions used by the statements -/

/-- The weight `(i * _delta) - 1` that `Read` adds for a triggered sensor at index `i`,
computed in `float` as the source does. -/
def weight (delta : F32) (i : Nat) : F32 :=
  F32.sub (F32.mul (F32.ofInt (i : Int)) delta) (F32.ofInt 1)

/-- The value `2.0 / max(n - 1, 1)` that `AddSensor` stores in `_delta` when the sensor
count is `n`. -/
def deltaOf (n : Nat) : F32 :=
  F32.div (F32.ofInt 2) (F32.ofInt (max ((n : Int) - 1) 1))

/-- Sensor `i` is triggered: the slot is inside the array, its identifier is non-zero
and its pin reads `LOW`. -/
def triggered (self : IRProximityArray) (gpio : Gpio) (i : Nat) : Bool :=
  if h : i < MAX_IR_SENSORS then
    decide (self._sensors ⟨i, h⟩ ≠ 0 ∧ gpio (self._sensors ⟨i, h⟩) = Level.LOW)
  else false

/-- The indices below `_sensorCount` of the triggered sensors, in increasing order. -/
def triggeredIndices (self : IRProximityArray) (gpio : Gpio) : List Nat :=
  (List.range self._sensorCount).filter (self.triggered gpio)

/-- The sum of the weights of the indices `l`, accumulated in `float` from `0` in list
order. -/
def weightSum (delta : F32) (l : List Nat) : F32 :=
  l.foldl (fun sum i => F32.add sum (weight delta i)) (F32.ofInt 0)

/-- The average weight of the indices `l`: their weight sum divided by their number. -/
def averageWeight (delta : F32) (l : List Nat) : F32 :=
  F32.div (weightSum delta l) (F32.ofInt (l.length : Int))

/-- The object after the calls `AddSensor(pin)` for the pins of a list, in order. -/
def addSensors (self : IRProximityArray) : List Int → IRProximityArray
  | [] => self
  | pin :: pins => addSensors (self.AddSensor pin).self pins

/-- The states an object can be in: those the constructor produces (for any six pin
arguments and any initial content of `_delta`) and those that `AddSensor`, `Reset`,
`Read` and `Poll` lead to from there. -/
inductive Reachable : IRProximityArray → Prop
  | construct (delta0 : F32) (p1 p2 p3 p4 p5 p6 : Int) :
      Reachable (construct delta0 p1 p2 p3 p4 p5 p6).self
  | addSensor {s : IRProximityArray} (pin : Int) :
      Reachable s → Reachable (s.AddSensor pin).self
  | reset {s : IRProximityArray} : Reachable s → Reachable s.Reset.self
  | read {s : IRProximityArray} (gpio : Gpio) (r : Result F32) :
      Reachable s → s.Read gpio = some r → Reachable r.self
  | poll {s : IRProximityArray} (PROXIMITY_EVENT : EVENT_ID) (gpio : Gpio) (r : Result Unit) :
      Reachable s → s.Poll PROXIMITY_EVENT gpio = some r → Reachable r.self

/-- One loop pass of `Read` on the pair `(reading, triggeredCount)`, for an index inside
the array. -/
def readStep (self : IRProximityArray) (gpio : Gpio) (acc : F32 × Nat) (i : Nat) : F32 × Nat :=
  if self.triggered gpio i then (F32.add acc.1 (weight self._delta i), acc.2 + 1) else acc

/-- The registry invariant: the sensor count fits the array and, once a sensor has been
added, `_delta` is the value computed from the count. -/
def WellFormed (self : IRProximityArray) : Prop :=
  self._sensorCount ≤ MAX_IR_SENSORS ∧
    (self._sensorCount ≠ 0 → self._delta = deltaOf self._sensorCount)

/-- The object after the first statements of the constructor, before any of its
`AddSensor` calls: no sensor, `_lastReading = NO_DETECTION`, all slots 0, and `_delta`
still holding its initial content `delta0`. -/
def fresh (delta0 : F32) : IRProximityArray :=
  { _sensors := fun _ => 0, _sensorCount := 0, _lastReading := NO_DETECTION, _delta := delta0 }

/-- A call of one of the methods `Poll`, `Read` and `AddSensor` (not `Reset`), with the
GPIO input it meets or its argument. -/
inductive Call where
  | Poll (gpio : Gpio)
  | Read (gpio : Gpio)
  | AddSensor (pin : Int)

/-- One call, on the pair of the object and the list of all events dispatched so far. -/
def call (PROXIMITY_EVENT : EVENT_ID) (st : IRProximityArray × List Event) :
    Call → Option (IRProximityArray × List Event)
  | Call.Poll gpio => (st.1.Poll PROXIMITY_EVENT gpio).map (fun r => (r.self, st.2 ++ r.events))
  | Call.Read gpio => (st.1.Read gpio).map (fun r => (r.self, st.2 ++ r.events))
  | Call.AddSensor pin =>
    some ((st.1.AddSensor pin).self, st.2 ++ (st.1.AddSensor pin).events)

/-- A sequence of calls, one after the other. -/
def runCalls (PROXIMITY_EVENT : EVENT_ID) (st : IRProximityArray × List Event)
    (calls : List Call) : Option (IRProximityArray × List Event) :=
  calls.foldlM (call PROXIMITY_EVENT) st

/-- The payload of the most recent event of a list, `NO_DETECTION` when there is none. -/
def lastPayload (events : List Event) : F32 :=
  match events.getLast? with
  | some e => e.value
  | none => NO_DETECTION

/-- What holds of an object and the list of all events dispatched since its construction,
as long as `Reset` is not called: the object is reachable, `_lastReading` is the payload
of the most recent event (`NO_DETECTION` when there is none), no two consecutive events
carry the same payload, the first event does not carry `NO_DETECTION`, and every event
has the kind `PROXIMITY_EVENT`. -/
def traceInv (PROXIMITY_EVENT : EVENT_ID) (st : IRProximityArray × List Event) : Prop :=
  Reachable st.1 ∧ st.1._lastReading = lastPayload st.2 ∧
    List.Chain' (fun a b => a.value ≠ b.value) st.2 ∧
    (∀ e, st.2.head? = some e → e.value ≠ NO_DETECTION) ∧
    ∀ e ∈ st.2, e.id = PROXIMITY_EVENT

end IRProximityArray

/-! ## The rounding of `F32` -/

section Rounding

/-- The value `rne a d` is a nearest natural number to `a / d`: it is off by at most one half,
and in a tie it is even. -/
theorem rne_spec (a d : Nat) (hd : 0 < d) :
    2 * (rne a d * d) ≤ 2 * a + d ∧ 2 * a ≤ 2 * (rne a d * d) + d ∧
      (2 * a = 2 * (rne a d * d) + d ∨ 2 * (rne a d * d) = 2 * a + d → rne a d % 2 = 0) ∧
      a / d ≤ rne a d ∧ rne a d ≤ a / d + 1 := by
  have hdm : d * (a / d) + a % d = a := Nat.div_add_mod a d
  have hr : a % d < d := Nat.mod_lt a hd
  have hmul : (a / d + 1) * d = a / d * d + d := by ring
  have hcomm : d * (a / d) = a / d * d := Nat.mul_comm _ _
  rw [hcomm] at hdm
  unfold rne
  simp only
  split_ifs with h1 h2 h3
  · exact ⟨by omega, by omega, fun h => by omega, le_refl _, by omega⟩
  · exact ⟨by omega, by omega, fun h => by omega, by omega, le_refl _⟩
  · exact ⟨by omega, by omega, fun _ => h3, le_refl _, by omega⟩
  · exact ⟨by omega, by omega, fun _ => by omega, by omega, le_refl _⟩

/-- With enough fuel `excess` finds the shift that leaves exactly 24 significant bits. -/
theorem excess_spec : ∀ fuel t : Nat, t ≤ fuel →
    (t < 2 ^ 24 → excess fuel t = 0) ∧
      (2 ^ 24 ≤ t → 2 ^ 23 ≤ t / 2 ^ excess fuel t ∧ t / 2 ^ excess fuel t < 2 ^ 24) := by
  intro fuel
  induction fuel with
  | zero =>
    intro t ht
    refine ⟨fun _ => rfl, fun h => ?_⟩
    omega
  | succ n ih =>
    intro t ht
    constructor
    · intro hlt
      rw [excess, if_pos hlt]
    · intro hge
      have hnlt : ¬ t < 2 ^ 24 := by omega
      by_cases h40 : t < 2 ^ 40
      · have hrec := ih (t / 2) (by omega)
        have hstep : excess (n + 1) t = excess n (t / 2) + 1 := by
          rw [excess, if_neg hnlt, if_pos h40]
        have hdiv : t / 2 ^ (excess n (t / 2) + 1) = t / 2 / 2 ^ excess n (t / 2) := by
          rw [pow_succ', Nat.div_div_eq_div_mul]
        rw [hstep, hdiv]
        by_cases hlt : t / 2 < 2 ^ 24
        · rw [hrec.1 hlt]
          simp only [pow_zero, Nat.div_one]
          omega
        · exact hrec.2 (by omega)
      · have hrec := ih (t / 2 ^ 16) (by omega)
        have hstep : excess (n + 1) t = excess n (t / 2 ^ 16) + 16 := by
          rw [excess, if_neg hnlt, if_neg h40]
        have hdiv : t / 2 ^ (excess n (t / 2 ^ 16) + 16) =
            t / 2 ^ 16 / 2 ^ excess n (t / 2 ^ 16) := by
          rw [Nat.add_comm, pow_add, Nat.div_div_eq_div_mul]
        rw [hstep, hdiv]
        exact hrec.2 (by omega)

/-- The value `roundMag a d` is a binary32 magnitude (an integer `m ≤ 2 ^ 24` times a power of two
`2 ^ s`, with `s = 0` or a full 24-bit significand `m ≥ 2 ^ 23`) and it is nearest to
`a / d`: off by at most half of the spacing `2 ^ s`. -/
theorem roundMag_spec (a d : Nat) (hd : 0 < d) :
    ∃ s m, roundMag a d = m * 2 ^ s ∧ m ≤ 2 ^ 24 ∧ (s = 0 ∨ 2 ^ 23 ≤ m) ∧
      2 * (roundMag a d * d) ≤ 2 * a + d * 2 ^ s ∧
      2 * a ≤ 2 * (roundMag a d * d) + d * 2 ^ s := by
  unfold roundMag
  simp only
  by_cases ht : a / d < 2 ^ 24
  · obtain ⟨h1, h2, _, _, h5⟩ := rne_spec a d hd
    simp only [ht, if_true]
    exact ⟨0, rne a d, by simp, by omega, Or.inl rfl, by simpa using h1, by simpa using h2⟩
  · simp only [ht, if_false]
    have hs := (excess_spec (a / d) (a / d) (le_refl _)).2 (by omega)
    have hD : 0 < d * 2 ^ excess (a / d) (a / d) := Nat.mul_pos hd (by positivity)
    obtain ⟨h1, h2, _, h4, h5⟩ := rne_spec a (d * 2 ^ excess (a / d) (a / d)) hD
    rw [← Nat.div_div_eq_div_mul] at h4 h5
    refine ⟨excess (a / d) (a / d), rne a (d * 2 ^ excess (a / d) (a / d)), rfl, by omega,
      Or.inr (by omega), ?_, ?_⟩
    · calc 2 * (rne a (d * 2 ^ excess (a / d) (a / d)) * 2 ^ excess (a / d) (a / d) * d)
          = 2 * (rne a (d * 2 ^ excess (a / d) (a / d)) * (d * 2 ^ excess (a / d) (a / d))) := by
            ring
        _ ≤ 2 * a + d * 2 ^ excess (a / d) (a / d) := h1
    · calc 2 * a ≤ 2 * (rne a (d * 2 ^ excess (a / d) (a / d)) * (d * 2 ^ excess (a / d) (a / d)))
            + d * 2 ^ excess (a / d) (a / d) := h2
        _ = 2 * (rne a (d * 2 ^ excess (a / d) (a / d)) * 2 ^ excess (a / d) (a / d) * d)
            + d * 2 ^ excess (a / d) (a / d) := by ring

/-- Known binary32 results, as a check of the arithmetic: 2/3 is `0x3F2AAAAB`, 2/5 is
`0x3ECCCCCD`, 1/10 is `0x3DCCCCCD`, 0.1f * 0.1f is `0x3C23D70B`, 0.1f + 0.2f is
`0x3E99999A`, `2 ^ 24 + 1` rounds to `2 ^ 24` and `2 ^ 24 + 3` to `2 ^ 24 + 4`, and half
of the smallest subnormal rounds to zero. -/
theorem F32_known_values :
    F32.div (F32.ofInt 2) (F32.ofInt 3) = ⟨((0xAAAAAB * 2 ^ 125 : Nat) : Int)⟩ ∧
      F32.div (F32.ofInt 2) (F32.ofInt 5) = ⟨((0xCCCCCD * 2 ^ 124 : Nat) : Int)⟩ ∧
      F32.div (F32.ofInt 1) (F32.ofInt 10) = ⟨((0xCCCCCD * 2 ^ 122 : Nat) : Int)⟩ ∧
      F32.mul (F32.div (F32.ofInt 1) (F32.ofInt 10)) (F32.div (F32.ofInt 1) (F32.ofInt 10)) =
        ⟨((0xA3D70B * 2 ^ 119 : Nat) : Int)⟩ ∧
      F32.add (F32.div (F32.ofInt 1) (F32.ofInt 10)) (F32.div (F32.ofInt 2) (F32.ofInt 10)) =
        ⟨((0x99999A * 2 ^ 124 : Nat) : Int)⟩ ∧
      F32.add (F32.ofInt 16777216) (F32.ofInt 1) = F32.ofInt 16777216 ∧
      F32.add (F32.ofInt 16777216) (F32.ofInt 3) = F32.ofInt 16777220 ∧
      F32.sub (F32.ofInt 0) (F32.ofInt 99) = F32.ofInt (-99) ∧
      F32.div ⟨1⟩ (F32.ofInt 2) = ⟨0⟩ ∧ F32.div ⟨3⟩ (F32.ofInt 2) = ⟨2⟩ := by
  decide

end Rounding

/-! ## Lemmas about `Read` -/

section ReadLemmas

open IRProximityArray

theorem Read_body_eq (self : IRProximityArray) (gpio : Gpio) (acc : F32 × Nat) (i : Nat)
    (h : i < MAX_IR_SENSORS) :
    Read.body self gpio acc i = some (self.readStep gpio acc i) := by
  unfold Read.body readStep triggered weight
  by_cases h0 : self._sensors ⟨i, h⟩ = 0
  · simp [h, h0]
  · by_cases hl : gpio (self._sensors ⟨i, h⟩) = Level.LOW
    · simp [h, h0, hl]
    · simp [h, h0, hl]

theorem Read_fold_eq (self : IRProximityArray) (gpio : Gpio) (l : List Nat) :
    ∀ acc : F32 × Nat, (∀ i ∈ l, i < MAX_IR_SENSORS) →
      l.foldlM (Read.body self gpio) acc = some (l.foldl (self.readStep gpio) acc) := by
  induction l with
  | nil => intro acc _; rfl
  | cons i l ih =>
    intro acc hl
    have hi : i < MAX_IR_SENSORS := hl i (List.mem_cons_self i l)
    have hl2 : ∀ j ∈ l, j < MAX_IR_SENSORS := fun j hj => hl j (List.mem_cons_of_mem i hj)
    simp only [List.foldlM_cons, List.foldl_cons, Read_body_eq self gpio acc i hi]
    exact ih _ hl2

theorem readStep_fold_filter (self : IRProximityArray) (gpio : Gpio) (l : List Nat) :
    ∀ acc : F32 × Nat, l.foldl (self.readStep gpio) acc =
      ((l.filter (self.triggered gpio)).foldl (fun sum i => F32.add sum (weight self._delta i)) acc.1,
        acc.2 + (l.filter (self.triggered gpio)).length) := by
  induction l with
  | nil => intro acc; simp
  | cons i l ih =>
    intro acc
    by_cases ht : self.triggered gpio i = true
    · simp only [List.foldl_cons, List.filter_cons, ht, if_true, List.length_cons, ih, readStep]
      simp only [Prod.mk.injEq, true_and]
      omega
    · simp only [List.foldl_cons, List.filter_cons, ht, ih, readStep]
      simp

/-- What `Read` computes on a state whose sensor count fits the array. -/
theorem Read_eq (self : IRProximityArray) (gpio : Gpio)
    (hc : self._sensorCount ≤ MAX_IR_SENSORS) :
    self.Read gpio = some
      { value :=
          if (self.triggeredIndices gpio).length > 0 then
            averageWeight self._delta (self.triggeredIndices gpio)
          else NO_DETECTION
        self := self, events := [], pinModes := [] } := by
  have hl : ∀ i ∈ List.range self._sensorCount, i < MAX_IR_SENSORS := by
    intro i hi
    exact lt_of_lt_of_le (List.mem_range.mp hi) hc
  unfold Read
  rw [Read_fold_eq self gpio _ _ hl, readStep_fold_filter]
  simp only [triggeredIndices, averageWeight, weightSum, Nat.zero_add]

end ReadLemmas

/-! ## `AddSensor` and the reachable states -/

section Registry

open IRProximityArray

theorem AddSensor_of_lt (self : IRProximityArray) (pin : Int)
    (h : self._sensorCount < MAX_IR_SENSORS) :
    self.AddSensor pin =
      { value := (self._sensorCount : Int)
        self :=
          { _sensors := Function.update self._sensors ⟨self._sensorCount, h⟩ (toUInt8 pin)
            _sensorCount := self._sensorCount + 1
            _lastReading := self._lastReading
            _delta := deltaOf (self._sensorCount + 1) }
        events := []
        pinModes := [toUInt8 pin] } := by
  have h256 : (self._sensorCount + 1) % 256 = self._sensorCount + 1 := by
    apply Nat.mod_eq_of_lt
    unfold MAX_IR_SENSORS at h
    omega
  unfold AddSensor deltaOf
  simp only [h, dite_true, h256]

theorem AddSensor_of_not_lt (self : IRProximityArray) (pin : Int)
    (h : ¬ self._sensorCount < MAX_IR_SENSORS) :
    self.AddSensor pin =
      { value := -1
        self := { self with _delta := deltaOf self._sensorCount }
        events := []
        pinModes := [] } := by
  unfold AddSensor deltaOf
  simp only [h, dite_false]

theorem WellFormed_AddSensor (self : IRProximityArray) (pin : Int) (hi : self.WellFormed) :
    (self.AddSensor pin).self.WellFormed := by
  by_cases h : self._sensorCount < MAX_IR_SENSORS
  · rw [AddSensor_of_lt self pin h]
    exact ⟨h, fun _ => rfl⟩
  · rw [AddSensor_of_not_lt self pin h]
    exact ⟨hi.1, fun _ => rfl⟩

theorem WellFormed_addIfPositive (r : Result Unit) (pin : Int) (hi : r.self.WellFormed) :
    (addIfPositive r pin).self.WellFormed := by
  unfold addIfPositive
  by_cases hp : pin > 0
  · simp only [hp, if_true]
    exact WellFormed_AddSensor r.self pin hi
  · simp only [hp, if_false]
    exact hi

theorem WellFormed_construct (delta0 : F32) (p1 p2 p3 p4 p5 p6 : Int) :
    (construct delta0 p1 p2 p3 p4 p5 p6).self.WellFormed := by
  unfold construct
  refine WellFormed_addIfPositive _ _ (WellFormed_addIfPositive _ _ (WellFormed_addIfPositive _ _
    (WellFormed_addIfPositive _ _ (WellFormed_addIfPositive _ _ (WellFormed_addIfPositive _ _ ?_)))))
  exact ⟨Nat.zero_le _, fun h => absurd rfl h⟩

theorem Read_self (self : IRProximityArray) (gpio : Gpio) (r : Result F32)
    (h : self.Read gpio = some r) : r.self = self ∧ r.events = [] ∧ r.pinModes = [] := by
  unfold Read at h
  split at h
  · exact absurd h (by simp)
  · simp only [Option.some.injEq] at h
    subst h
    exact ⟨rfl, rfl, rfl⟩

/-- The result of `Poll` in terms of the value that `Read` returned. -/
theorem Poll_of_Read (PROXIMITY_EVENT : EVENT_ID) (self : IRProximityArray) (gpio : Gpio)
    (rd : Result F32) (h : self.Read gpio = some rd) :
    self.Poll PROXIMITY_EVENT gpio = some
      (if rd.value ≠ self._lastReading then
        { value := ()
          self := { self with _lastReading := rd.value }
          events := [{ id := PROXIMITY_EVENT, value := rd.value }]
          pinModes := [] }
      else { value := (), self := self, events := [], pinModes := [] }) := by
  obtain ⟨h1, h2, h3⟩ := Read_self self gpio rd h
  unfold Poll
  rw [h]
  simp only [h1, h2, h3, List.nil_append]
  by_cases hne : rd.value = self._lastReading
  · simp [hne]
  · simp [hne]

theorem Poll_self (PROXIMITY_EVENT : EVENT_ID) (self : IRProximityArray) (gpio : Gpio)
    (r : Result Unit) (h : self.Poll PROXIMITY_EVENT gpio = some r) :
    r.self._sensors = self._sensors ∧ r.self._sensorCount = self._sensorCount ∧
      r.self._delta = self._delta := by
  cases hrd : self.Read gpio with
  | none =>
    unfold Poll at h
    rw [hrd] at h
    exact absurd h (by simp)
  | some rd =>
    rw [Poll_of_Read PROXIMITY_EVENT self gpio rd hrd] at h
    simp only [Option.some.injEq] at h
    subst h
    by_cases hne : rd.value = self._lastReading
    · simp [hne]
    · simp [hne]

/-- Every reachable state satisfies the registry invariant. -/
theorem Reachable_WellFormed (self : IRProximityArray) (h : Reachable self) : self.WellFormed := by
  induction h with
  | construct delta0 p1 p2 p3 p4 p5 p6 => exact WellFormed_construct delta0 p1 p2 p3 p4 p5 p6
  | addSensor pin _ ih => exact WellFormed_AddSensor _ pin ih
  | reset _ ih => exact ih
  | read gpio r _ hr ih =>
    rw [(Read_self _ gpio r hr).1]
    exact ih
  | poll pe gpio r _ hr ih =>
    obtain ⟨_, h2, h3⟩ := Poll_self pe _ gpio r hr
    unfold WellFormed
    rw [h2, h3]
    exact ih

/-- Adding sensors one after the other keeps the object reachable. -/
theorem Reachable_addSensors (pins : List Int) :
    ∀ self : IRProximityArray, Reachable self → Reachable (self.addSensors pins) := by
  induction pins with
  | nil => intro self h; exact h
  | cons pin pins ih =>
    intro self h
    exact ih _ (Reachable.addSensor pin h)

/-- As long as the array has room, every `AddSensor` call of a sequence succeeds and
raises the count by one. -/
theorem addSensors_sensorCount (pins : List Int) :
    ∀ self : IRProximityArray, self._sensorCount + pins.length ≤ MAX_IR_SENSORS →
      (self.addSensors pins)._sensorCount = self._sensorCount + pins.length := by
  induction pins with
  | nil => intro self _; rfl
  | cons pin pins ih =>
    intro self h
    simp only [List.length_cons] at h
    have hlt : self._sensorCount < MAX_IR_SENSORS := by omega
    have hstep : (self.AddSensor pin).self._sensorCount = self._sensorCount + 1 := by
      rw [AddSensor_of_lt self pin hlt]
    have hrec := ih (self.AddSensor pin).self (by rw [hstep]; omega)
    simp only [addSensors, List.length_cons]
    rw [hrec, hstep]
    omega

end Registry

/-! ## The reading -/

section Reading

open IRProximityArray

theorem NO_DETECTION_units : NO_DETECTION.units = -((99 * F32.ONE : Nat) : Int) := by decide

theorem triggeredIndices_eq_nil (self : IRProximityArray) (gpio : Gpio)
    (hn : ∀ i, i < self._sensorCount → self.triggered gpio i = false) :
    self.triggeredIndices gpio = [] := by
  unfold triggeredIndices
  rw [List.filter_eq_nil_iff]
  intro i hi
  simp [hn i (List.mem_range.mp hi)]

/-- C3: on a state with any sensor count from 0 to 6 and a GPIO input under which no
registered sensor is triggered (no index below the count has a non-zero identifier whose
pin reads `LOW`), `Read` returns exactly `NO_DETECTION` and changes nothing, and
`NO_DETECTION` is the number -99. -/
theorem C3_Read_no_detection (self : IRProximityArray) (gpio : Gpio)
    (hc : self._sensorCount ≤ MAX_IR_SENSORS)
    (hn : ∀ i, ∀ h : i < MAX_IR_SENSORS, i < self._sensorCount →
      ¬ (self._sensors ⟨i, h⟩ ≠ 0 ∧ gpio (self._sensors ⟨i, h⟩) = Level.LOW)) :
    self.Read gpio = some { value := NO_DETECTION, self := self, events := [], pinModes := [] } ∧
      NO_DETECTION = F32.ofInt (-99) ∧ NO_DETECTION.toRat = -99 := by
  have hn2 : ∀ i, i < self._sensorCount → self.triggered gpio i = false := by
    intro i hi
    have h6 : i < MAX_IR_SENSORS := lt_of_lt_of_le hi hc
    unfold triggered
    simp only [h6, dite_true, decide_eq_false_iff_not]
    exact hn i h6 hi
  refine ⟨?_, rfl, ?_⟩
  · rw [Read_eq self gpio hc, triggeredIndices_eq_nil self gpio hn2]
    simp
  · unfold F32.toRat
    rw [NO_DETECTION_units]
    have h1 : ((F32.ONE : Nat) : ℚ) ≠ 0 := by norm_num [F32.ONE]
    push_cast
    field_simp

/-- C3 at three registered sensors (pins 2, 3, 4) that all read `HIGH`. -/
theorem C3_Read_no_detection_witness :
    (construct ⟨0⟩ 2 3 4 0 0 0).self.Read (fun _ => Level.HIGH) =
        some { value := NO_DETECTION, self := (construct ⟨0⟩ 2 3 4 0 0 0).self,
               events := [], pinModes := [] } ∧
      NO_DETECTION = F32.ofInt (-99) ∧ NO_DETECTION.toRat = -99 :=
  C3_Read_no_detection (construct ⟨0⟩ 2 3 4 0 0 0).self (fun _ => Level.HIGH)
    (by decide) (by decide)

theorem mem_triggeredIndices (self : IRProximityArray) (gpio : Gpio) (i : Nat) :
    i ∈ self.triggeredIndices gpio ↔
      i < self._sensorCount ∧ ∃ h : i < MAX_IR_SENSORS,
        self._sensors ⟨i, h⟩ ≠ 0 ∧ gpio (self._sensors ⟨i, h⟩) = Level.LOW := by
  unfold triggeredIndices triggered
  rw [List.mem_filter, List.mem_range]
  by_cases h : i < MAX_IR_SENSORS
  · simp [h]
  · simp [h]

theorem Read_of_triggered (self : IRProximityArray) (gpio : Gpio)
    (hc : self._sensorCount ≤ MAX_IR_SENSORS)
    (hd : self._delta = deltaOf self._sensorCount)
    (ht : self.triggeredIndices gpio ≠ []) :
    self.Read gpio = some
        { value := averageWeight (deltaOf self._sensorCount) (self.triggeredIndices gpio)
          self := self, events := [], pinModes := [] } := by
  rw [Read_eq self gpio hc, if_pos (List.length_pos.mpr ht), hd]

theorem triggeredIndices_ne_nil (self : IRProximityArray) (gpio : Gpio)
    (ht : ∃ i, ∃ h : i < MAX_IR_SENSORS, i < self._sensorCount ∧
      self._sensors ⟨i, h⟩ ≠ 0 ∧ gpio (self._sensors ⟨i, h⟩) = Level.LOW) :
    self.triggeredIndices gpio ≠ [] := by
  obtain ⟨i, h, hi, hs⟩ := ht
  exact List.ne_nil_of_mem ((mem_triggeredIndices self gpio i).mpr ⟨hi, h, hs⟩)

/-- C1: on a registry state with `delta = 2/max(count-1,1)`, under a GPIO input for
which at least one registered sensor with a non-zero identifier reads `LOW`, `Read`
returns the average weight of the triggered sensors: the sum of the weights
`i * delta - 1` over exactly the indices `i < count` whose identifier is non-zero and
whose pin reads `LOW`, divided by the number of those indices (sum, product, difference
and quotient being those of `float`, taken in index order as the loop does). -/
theorem C1_Read_average (self : IRProximityArray) (gpio : Gpio)
    (hc : self._sensorCount ≤ MAX_IR_SENSORS)
    (hd : self._delta = deltaOf self._sensorCount)
    (ht : ∃ i, ∃ h : i < MAX_IR_SENSORS, i < self._sensorCount ∧
      self._sensors ⟨i, h⟩ ≠ 0 ∧ gpio (self._sensors ⟨i, h⟩) = Level.LOW) :
    self.Read gpio = some
        { value := averageWeight (deltaOf self._sensorCount) (self.triggeredIndices gpio)
          self := self, events := [], pinModes := [] } ∧
      ∀ i, i ∈ self.triggeredIndices gpio ↔
        i < self._sensorCount ∧ ∃ h : i < MAX_IR_SENSORS,
          self._sensors ⟨i, h⟩ ≠ 0 ∧ gpio (self._sensors ⟨i, h⟩) = Level.LOW :=
  ⟨Read_of_triggered self gpio hc hd (triggeredIndices_ne_nil self gpio ht),
    mem_triggeredIndices self gpio⟩

/-- C1 at three sensors (pins 2, 3, 4) of which sensors 0 and 2 read `LOW` and sensor 1
reads `HIGH`: the triggered indices are 0 and 2 and the reading is (-1 + 1) / 2 = 0. -/
theorem C1_Read_average_witness :
    (construct ⟨0⟩ 2 3 4 0 0 0).self.Read
        (fun pin => if pin = 3 then Level.HIGH else Level.LOW) =
      some { value := F32.ofInt 0, self := (construct ⟨0⟩ 2 3 4 0 0 0).self, events := [],
             pinModes := [] } ∧
      (construct ⟨0⟩ 2 3 4 0 0 0).self.triggeredIndices
          (fun pin => if pin = 3 then Level.HIGH else Level.LOW) = [0, 2] ∧
      weight (construct ⟨0⟩ 2 3 4 0 0 0).self._delta 0 = F32.ofInt (-1) ∧
      weight (construct ⟨0⟩ 2 3 4 0 0 0).self._delta 2 = F32.ofInt 1 :=
  ⟨(C1_Read_average (construct ⟨0⟩ 2 3 4 0 0 0).self
      (fun pin => if pin = 3 then Level.HIGH else Level.LOW) (by decide) (by decide)
      ⟨0, by decide, by decide, by decide, by decide⟩).1.trans (by rfl),
    by decide, by decide, by decide⟩

/-- All trigger patterns of all sensor counts up to six, by evaluation: the average
weight of a non-empty set of indices below `n` lies between -1 and 1. -/
theorem averageWeight_bound_bits : ∀ n : Fin 7, ∀ b0 b1 b2 b3 b4 b5 : Bool,
    (List.range n.val).filter (fun i => [b0, b1, b2, b3, b4, b5].getD i false) ≠ [] →
    F32.ofInt (-1) ≤ averageWeight (deltaOf n.val)
        ((List.range n.val).filter (fun i => [b0, b1, b2, b3, b4, b5].getD i false)) ∧
      averageWeight (deltaOf n.val)
        ((List.range n.val).filter (fun i => [b0, b1, b2, b3, b4, b5].getD i false)) ≤
        F32.ofInt 1 := by
  set_option maxRecDepth 1000000 in decide

theorem filter_range_bits (p : Nat → Bool) (n : Nat) (hn : n ≤ 6) :
    (List.range n).filter p =
      (List.range n).filter (fun i => [p 0, p 1, p 2, p 3, p 4, p 5].getD i false) := by
  apply List.filter_congr
  intro i hi
  have h6 : i < 6 := lt_of_lt_of_le (List.mem_range.mp hi) hn
  interval_cases i <;> rfl

theorem averageWeight_bound (p : Nat → Bool) (n : Nat) (hn : n ≤ 6)
    (hne : (List.range n).filter p ≠ []) :
    F32.ofInt (-1) ≤ averageWeight (deltaOf n) ((List.range n).filter p) ∧
      averageWeight (deltaOf n) ((List.range n).filter p) ≤ F32.ofInt 1 := by
  rw [filter_range_bits p n hn] at hne ⊢
  exact averageWeight_bound_bits ⟨n, by omega⟩ (p 0) (p 1) (p 2) (p 3) (p 4) (p 5) hne

theorem F32_ofInt_one_units : (F32.ofInt 1).units = ((F32.ONE : Nat) : Int) := by decide

theorem F32_ofInt_neg_one_units : (F32.ofInt (-1)).units = -((F32.ONE : Nat) : Int) := by decide

theorem F32_toRat_bounds (a : F32) (h1 : F32.ofInt (-1) ≤ a) (h2 : a ≤ F32.ofInt 1) :
    -1 ≤ a.toRat ∧ a.toRat ≤ 1 := by
  have hpos : (0 : ℚ) < ((F32.ONE : Nat) : ℚ) := by norm_num [F32.ONE]
  have e1 : (F32.ofInt (-1)).units ≤ a.units := h1
  have e2 : a.units ≤ (F32.ofInt 1).units := h2
  rw [F32_ofInt_neg_one_units] at e1
  rw [F32_ofInt_one_units] at e2
  have q1 : -((F32.ONE : Nat) : ℚ) ≤ (a.units : ℚ) := by exact_mod_cast e1
  have q2 : (a.units : ℚ) ≤ ((F32.ONE : Nat) : ℚ) := by exact_mod_cast e2
  unfold F32.toRat
  constructor
  · rw [le_div_iff₀ hpos]
    linarith
  · rw [div_le_iff₀ hpos]
    linarith

/-- C2: in every reachable state and under every GPIO input with at least one triggered
sensor, `Read` returns a value, and that value lies between -1 and 1 (both as a `float`
comparison and as a number). -/
theorem C2_Read_in_range (self : IRProximityArray) (gpio : Gpio) (hr : Reachable self)
    (ht : ∃ i, ∃ h : i < MAX_IR_SENSORS, i < self._sensorCount ∧
      self._sensors ⟨i, h⟩ ≠ 0 ∧ gpio (self._sensors ⟨i, h⟩) = Level.LOW) :
    ∃ r, self.Read gpio = some r ∧
      (F32.ofInt (-1) ≤ r.value ∧ r.value ≤ F32.ofInt 1) ∧
      (-1 ≤ r.value.toRat ∧ r.value.toRat ≤ 1) := by
  obtain ⟨hc, hd⟩ := Reachable_WellFormed self hr
  have hne := triggeredIndices_ne_nil self gpio ht
  have hpos : self._sensorCount ≠ 0 := by
    obtain ⟨i, _, hi, _⟩ := ht
    omega
  have hread := Read_of_triggered self gpio hc (hd hpos) hne
  have hb := averageWeight_bound (self.triggered gpio) self._sensorCount hc hne
  exact ⟨_, hread, hb, F32_toRat_bounds _ hb.1 hb.2⟩

/-- C2 at three sensors (pins 2, 3, 4) of which sensors 0 and 2 are triggered. -/
theorem C2_Read_in_range_witness :
    ∃ r, (construct ⟨0⟩ 2 3 4 0 0 0).self.Read
        (fun pin => if pin = 3 then Level.HIGH else Level.LOW) = some r ∧
      (F32.ofInt (-1) ≤ r.value ∧ r.value ≤ F32.ofInt 1) ∧
      (-1 ≤ r.value.toRat ∧ r.value.toRat ≤ 1) :=
  C2_Read_in_range (construct ⟨0⟩ 2 3 4 0 0 0).self
    (fun pin => if pin = 3 then Level.HIGH else Level.LOW)
    (Reachable.construct ⟨0⟩ 2 3 4 0 0 0) ⟨0, by decide, by decide, by decide, by decide⟩

end Reading

/-! ## Polling and reset -/

section Polling

open IRProximityArray

/-- The method `Read` does not look at `_lastReading`. -/
theorem Read_lastReading (self : IRProximityArray) (x : F32) (gpio : Gpio) :
    Read { self with _lastReading := x } gpio =
      (self.Read gpio).map (fun r => { r with self := { self with _lastReading := x } }) := by
  have hb : Read.body { self with _lastReading := x } gpio = Read.body self gpio := rfl
  unfold Read
  simp only [hb]
  cases (List.range self._sensorCount).foldlM (Read.body self gpio) (F32.ofInt 0, 0) with
  | none => rfl
  | some acc => rfl

/-- After a `Poll`, a second `Poll` under the same GPIO input finds the reading equal to
`_lastReading`. -/
theorem Poll_twice (PROXIMITY_EVENT : EVENT_ID) (self : IRProximityArray) (gpio : Gpio)
    (rd : Result F32) (h : self.Read gpio = some rd) :
    ∃ r1, self.Poll PROXIMITY_EVENT gpio = some r1 ∧
      r1.self.Poll PROXIMITY_EVENT gpio =
        some { value := (), self := r1.self, events := [], pinModes := [] } := by
  by_cases heq : rd.value = self._lastReading
  · have hp := Poll_of_Read PROXIMITY_EVENT self gpio rd h
    rw [if_neg (not_not.mpr heq)] at hp
    exact ⟨_, hp, hp⟩
  · have hp := Poll_of_Read PROXIMITY_EVENT self gpio rd h
    rw [if_pos heq] at hp
    refine ⟨_, hp, ?_⟩
    have h2 := Read_lastReading self rd.value gpio
    rw [h] at h2
    have hp2 := Poll_of_Read PROXIMITY_EVENT _ gpio _ h2
    rw [if_neg (not_not.mpr rfl)] at hp2
    exact hp2

/-- C4: when the value `r` returned by `Read` differs from `_lastReading`, `Poll`
dispatches exactly one event, whose kind is `PROXIMITY_EVENT` and whose payload is `r`,
and afterwards `_lastReading = r` (the rest of the object is unchanged). -/
theorem C4_Poll_change (PROXIMITY_EVENT : EVENT_ID) (self : IRProximityArray) (gpio : Gpio)
    (rd : Result F32) (h : self.Read gpio = some rd) (hne : rd.value ≠ self._lastReading) :
    self.Poll PROXIMITY_EVENT gpio = some
      { value := ()
        self := { self with _lastReading := rd.value }
        events := [{ id := PROXIMITY_EVENT, value := rd.value }]
        pinModes := [] } := by
  rw [Poll_of_Read PROXIMITY_EVENT self gpio rd h, if_pos hne]

/-- C4 on a fresh object with three sensors (pins 2, 3, 4), whose `_lastReading` is
`NO_DETECTION`, when only the right-most sensor is triggered: the reading is 1 and one
event carries it. The event identifier is taken to be 7. -/
theorem C4_Poll_change_witness :
    (construct ⟨0⟩ 2 3 4 0 0 0).self.Poll 7
        (fun pin => if pin = 4 then Level.LOW else Level.HIGH) = some
      { value := ()
        self := { (construct ⟨0⟩ 2 3 4 0 0 0).self with _lastReading := F32.ofInt 1 }
        events := [{ id := 7, value := F32.ofInt 1 }]
        pinModes := [] } :=
  C4_Poll_change 7 (construct ⟨0⟩ 2 3 4 0 0 0).self
    (fun pin => if pin = 4 then Level.LOW else Level.HIGH)
    { value := F32.ofInt 1, self := (construct ⟨0⟩ 2 3 4 0 0 0).self, events := [], pinModes := [] }
    (by rfl) (by decide)

/-- C5: when the value returned by `Read` equals `_lastReading`, `Poll` dispatches no
event and leaves the whole object unchanged; and on every state whose sensor count fits
the array, `Poll` returns and a second `Poll` under the same GPIO input directly after it
dispatches no event and changes nothing. -/
theorem C5_Poll_no_change (PROXIMITY_EVENT : EVENT_ID) (self : IRProximityArray)
    (gpio : Gpio) (hc : self._sensorCount ≤ MAX_IR_SENSORS) :
    (∀ rd, self.Read gpio = some rd → rd.value = self._lastReading →
        self.Poll PROXIMITY_EVENT gpio =
          some { value := (), self := self, events := [], pinModes := [] }) ∧
      ∃ r1, self.Poll PROXIMITY_EVENT gpio = some r1 ∧
        r1.self.Poll PROXIMITY_EVENT gpio =
          some { value := (), self := r1.self, events := [], pinModes := [] } := by
  constructor
  · intro rd h heq
    rw [Poll_of_Read PROXIMITY_EVENT self gpio rd h, if_neg (not_not.mpr heq)]
  · exact Poll_twice PROXIMITY_EVENT self gpio _ (Read_eq self gpio hc)

/-- C5 on a fresh object with three sensors that all read `HIGH`: the reading is
`NO_DETECTION` again and again. -/
theorem C5_Poll_no_change_witness :
    (∀ rd, (construct ⟨0⟩ 2 3 4 0 0 0).self.Read (fun _ => Level.HIGH) = some rd →
        rd.value = (construct ⟨0⟩ 2 3 4 0 0 0).self._lastReading →
        (construct ⟨0⟩ 2 3 4 0 0 0).self.Poll 7 (fun _ => Level.HIGH) =
          some { value := (), self := (construct ⟨0⟩ 2 3 4 0 0 0).self, events := [],
                 pinModes := [] }) ∧
      ∃ r1, (construct ⟨0⟩ 2 3 4 0 0 0).self.Poll 7 (fun _ => Level.HIGH) = some r1 ∧
        r1.self.Poll 7 (fun _ => Level.HIGH) =
          some { value := (), self := r1.self, events := [], pinModes := [] } :=
  C5_Poll_no_change 7 (construct ⟨0⟩ 2 3 4 0 0 0).self (fun _ => Level.HIGH) (by decide)

/-- C10: `Reset` sets `_lastReading` to `NO_DETECTION` whatever it was, dispatches no
event and leaves `_sensors`, `_sensorCount` and `_delta` unchanged; a `Poll` directly
after it dispatches no event when `Read` yields `NO_DETECTION`, and exactly one event,
carrying the value, when `Read` yields any other value. -/
theorem C10_Reset_then_Poll (PROXIMITY_EVENT : EVENT_ID) (self : IRProximityArray)
    (gpio : Gpio) (rd : Result F32) (h : self.Read gpio = some rd) :
    self.Reset =
        { value := (), self := { self with _lastReading := NO_DETECTION }, events := [],
          pinModes := [] } ∧
      (self.Reset.self._sensors = self._sensors ∧
        self.Reset.self._sensorCount = self._sensorCount ∧
        self.Reset.self._delta = self._delta) ∧
      (rd.value = NO_DETECTION →
        self.Reset.self.Poll PROXIMITY_EVENT gpio =
          some { value := (), self := self.Reset.self, events := [], pinModes := [] }) ∧
      (rd.value ≠ NO_DETECTION →
        self.Reset.self.Poll PROXIMITY_EVENT gpio = some
          { value := ()
            self := { self with _lastReading := rd.value }
            events := [{ id := PROXIMITY_EVENT, value := rd.value }]
            pinModes := [] }) := by
  have h2 := Read_lastReading self NO_DETECTION gpio
  rw [h] at h2
  refine ⟨rfl, ⟨rfl, rfl, rfl⟩, ?_, ?_⟩
  · intro heq
    have hp := Poll_of_Read PROXIMITY_EVENT _ gpio _ h2
    rw [if_neg (not_not.mpr heq)] at hp
    exact hp
  · intro hne
    have hp := Poll_of_Read PROXIMITY_EVENT _ gpio _ h2
    rw [if_pos hne] at hp
    exact hp

/-- C10 on an object with three sensors (pins 2, 3, 4) when only the right-most sensor
is triggered, so that `Read` yields 1. -/
theorem C10_Reset_then_Poll_witness :
    (construct ⟨0⟩ 2 3 4 0 0 0).self.Reset =
        { value := ()
          self := { (construct ⟨0⟩ 2 3 4 0 0 0).self with _lastReading := NO_DETECTION }
          events := [], pinModes := [] } ∧
      ((construct ⟨0⟩ 2 3 4 0 0 0).self.Reset.self._sensors =
          (construct ⟨0⟩ 2 3 4 0 0 0).self._sensors ∧
        (construct ⟨0⟩ 2 3 4 0 0 0).self.Reset.self._sensorCount =
          (construct ⟨0⟩ 2 3 4 0 0 0).self._sensorCount ∧
        (construct ⟨0⟩ 2 3 4 0 0 0).self.Reset.self._delta =
          (construct ⟨0⟩ 2 3 4 0 0 0).self._delta) ∧
      (F32.ofInt 1 = NO_DETECTION →
        (construct ⟨0⟩ 2 3 4 0 0 0).self.Reset.self.Poll 7
            (fun pin => if pin = 4 then Level.LOW else Level.HIGH) =
          some { value := (), self := (construct ⟨0⟩ 2 3 4 0 0 0).self.Reset.self, events := [],
                 pinModes := [] }) ∧
      (F32.ofInt 1 ≠ NO_DETECTION →
        (construct ⟨0⟩ 2 3 4 0 0 0).self.Reset.self.Poll 7
            (fun pin => if pin = 4 then Level.LOW else Level.HIGH) = some
          { value := ()
            self := { (construct ⟨0⟩ 2 3 4 0 0 0).self with _lastReading := F32.ofInt 1 }
            events := [{ id := 7, value := F32.ofInt 1 }]
            pinModes := [] }) :=
  C10_Reset_then_Poll 7 (construct ⟨0⟩ 2 3 4 0 0 0).self
    (fun pin => if pin = 4 then Level.LOW else Level.HIGH)
    { value := F32.ofInt 1, self := (construct ⟨0⟩ 2 3 4 0 0 0).self, events := [], pinModes := [] }
    (by rfl)

end Polling

/-! ## The registry -/

section RegistryClaims

open IRProximityArray

/-- C6: on every reachable state that holds 6 sensors and for every pin, `AddSensor`
returns -1, configures no pin, dispatches nothing and leaves the object as it was:
`_sensorCount` (still 6), the six stored identifiers, `_delta` and `_lastReading`. -/
theorem C6_AddSensor_full (self : IRProximityArray) (pin : Int) (hr : Reachable self)
    (h6 : self._sensorCount = 6) :
    self.AddSensor pin = { value := -1, self := self, events := [], pinModes := [] } ∧
      (self.AddSensor pin).self._sensorCount = 6 := by
  have hd : self._delta = deltaOf self._sensorCount :=
    (Reachable_WellFormed self hr).2 (by rw [h6]; decide)
  have hnot : ¬ self._sensorCount < MAX_IR_SENSORS := by
    rw [h6]
    decide
  have hs : ({ self with _delta := deltaOf self._sensorCount } : IRProximityArray) = self := by
    rw [← hd]
  rw [AddSensor_of_not_lt self pin hnot, hs]
  exact ⟨rfl, h6⟩

/-- C6 for a seventh `AddSensor` after the constructor has added six sensors. -/
theorem C6_AddSensor_full_witness :
    (construct ⟨0⟩ 2 3 4 5 6 7).self.AddSensor 8 =
        { value := -1, self := (construct ⟨0⟩ 2 3 4 5 6 7).self, events := [], pinModes := [] } ∧
      ((construct ⟨0⟩ 2 3 4 5 6 7).self.AddSensor 8).self._sensorCount = 6 :=
  C6_AddSensor_full (construct ⟨0⟩ 2 3 4 5 6 7).self 8 (Reachable.construct ⟨0⟩ 2 3 4 5 6 7)
    (by decide)

/-- C7, as stated, fails: `AddSensor(256)` on an empty registry succeeds with index 0, but
slot 0 then holds 0, not the pin 256. -/
theorem C7_slot_counterexample :
    (construct ⟨0⟩ 0 0 0 0 0 0).self._sensorCount = 0 ∧
      ((construct ⟨0⟩ 0 0 0 0 0 0).self.AddSensor 256).value = 0 ∧
      ¬ ((((construct ⟨0⟩ 0 0 0 0 0 0).self.AddSensor 256).self._sensors ⟨0, by decide⟩ : Nat) : Int)
          = 256 := by
  decide

/-- C7, amended: `AddSensor` returns -1 exactly when the array is full; on a state with
count `c < 6` it returns the index `c` (a number from 0 to 5), the new count is `c + 1`,
slot `c` holds the pin reduced modulo 256 (the pin itself when it is in 0..255, 0
included), and the identifiers at the indices below `c` are unchanged. -/
theorem C7_AddSensor_appends (self : IRProximityArray) (pin : Int) :
    ((self.AddSensor pin).value = -1 ↔ ¬ self._sensorCount < MAX_IR_SENSORS) ∧
      ∀ h : self._sensorCount < MAX_IR_SENSORS,
        (self.AddSensor pin).value = (self._sensorCount : Int) ∧
        (0 ≤ (self.AddSensor pin).value ∧ (self.AddSensor pin).value ≤ 5) ∧
        (self.AddSensor pin).self._sensorCount = self._sensorCount + 1 ∧
        (((self.AddSensor pin).self._sensors ⟨self._sensorCount, h⟩ : Nat) : Int) = pin % 256 ∧
        (0 ≤ pin ∧ pin ≤ 255 →
          (((self.AddSensor pin).self._sensors ⟨self._sensorCount, h⟩ : Nat) : Int) = pin) ∧
        ∀ i : Fin MAX_IR_SENSORS, i.val < self._sensorCount →
          (self.AddSensor pin).self._sensors i = self._sensors i := by
  have hmod : ((toUInt8 pin : Nat) : Int) = pin % 256 := by
    unfold toUInt8
    omega
  constructor
  · by_cases h : self._sensorCount < MAX_IR_SENSORS
    · rw [AddSensor_of_lt self pin h]
      simp only [h, not_true_eq_false, iff_false]
      omega
    · rw [AddSensor_of_not_lt self pin h]
      simp [h]
  · intro h
    rw [AddSensor_of_lt self pin h]
    refine ⟨rfl, ⟨by simp, ?_⟩, rfl, ?_, ?_, ?_⟩
    · simp only
      unfold MAX_IR_SENSORS at h
      omega
    · simp only [Function.update_same]
      exact hmod
    · intro hp
      simp only [Function.update_same]
      rw [hmod]
      omega
    · intro i hi
      simp only
      apply Function.update_noteq
      intro heq
      rw [heq] at hi
      exact absurd hi (lt_irrefl _)

/-- C7 (amended) on an object that holds the two sensors 2 and 3, for the pin 0. -/
theorem C7_AddSensor_appends_witness :
    (((construct ⟨0⟩ 2 3 0 0 0 0).self.AddSensor 0).value = -1 ↔
        ¬ (construct ⟨0⟩ 2 3 0 0 0 0).self._sensorCount < MAX_IR_SENSORS) ∧
      ((construct ⟨0⟩ 2 3 0 0 0 0).self._sensorCount < MAX_IR_SENSORS ∧
        ((construct ⟨0⟩ 2 3 0 0 0 0).self.AddSensor 0).value = 2 ∧
        ((construct ⟨0⟩ 2 3 0 0 0 0).self.AddSensor 0).self._sensorCount = 3 ∧
        ((construct ⟨0⟩ 2 3 0 0 0 0).self.AddSensor 0).self._sensors ⟨1, by decide⟩ = 3) :=
  ⟨(C7_AddSensor_appends (construct ⟨0⟩ 2 3 0 0 0 0).self 0).1,
    by decide,
    ((C7_AddSensor_appends (construct ⟨0⟩ 2 3 0 0 0 0).self 0).2 (by decide)).1,
    ((C7_AddSensor_appends (construct ⟨0⟩ 2 3 0 0 0 0).self 0).2 (by decide)).2.2.1,
    by decide⟩

/-- The weights of every sensor count from 1 to 6, by evaluation. -/
theorem weights_enum : ∀ n : Fin 7, 1 ≤ n.val →
    weight (deltaOf n.val) 0 = F32.ofInt (-1) ∧
      (1 < n.val → weight (deltaOf n.val) (n.val - 1) = F32.ofInt 1) ∧
      (∀ i, i < n.val - 1 → weight (deltaOf n.val) i < weight (deltaOf n.val) (i + 1)) ∧
      (∀ i, i < n.val - 1 →
        ((weight (deltaOf n.val) (i + 1)).units - (weight (deltaOf n.val) i).units
          - (deltaOf n.val).units).natAbs ≤ 2 ^ 125) ∧
      (n.val = 2 ∨ n.val = 3 ∨ n.val = 5 → ∀ i, i < n.val - 1 →
        (weight (deltaOf n.val) (i + 1)).units - (weight (deltaOf n.val) i).units
            = (deltaOf n.val).units ∧
          F32.sub (weight (deltaOf n.val) (i + 1)) (weight (deltaOf n.val) i)
            = deltaOf n.val) := by
  set_option maxRecDepth 1000000 in decide

/-- C8, as stated, fails: after four successful `AddSensor` calls the weights of the
indices 2 and 3 do not differ by `_delta`, neither as the exact difference of the two
`float` values nor as their `float` difference (`_delta` is 2/3 rounded to `float`, the
two weights are `2 * _delta - 1` and 1). -/
theorem C8_spacing_counterexample :
    (construct ⟨0⟩ 2 3 4 5 0 0).self._sensorCount = 4 ∧
      (weight (construct ⟨0⟩ 2 3 4 5 0 0).self._delta 3).units
          - (weight (construct ⟨0⟩ 2 3 4 5 0 0).self._delta 2).units
        ≠ (construct ⟨0⟩ 2 3 4 5 0 0).self._delta.units ∧
      F32.sub (weight (construct ⟨0⟩ 2 3 4 5 0 0).self._delta 3)
          (weight (construct ⟨0⟩ 2 3 4 5 0 0).self._delta 2)
        ≠ (construct ⟨0⟩ 2 3 4 5 0 0).self._delta := by
  decide

/-- C8, amended: in every reachable state with a sensor count `n` from 1 to 6 (each of
the `n` sensors having been added by a successful `AddSensor` call), `_delta` is
`2.0 / max(n - 1, 1)` in `float`, the weight of index 0 is exactly -1, for `n > 1`
the weight of index `n - 1` is exactly +1, the weights of the indices `0..n-1` increase
strictly, and consecutive weights differ by `_delta` up to an error of at most
`2 ^ (-24)` (`2 ^ 125` units of `2 ^ (-149)`), with no error at all for `n` = 2, 3, 5. -/
theorem C8_weights (self : IRProximityArray) (hr : Reachable self)
    (h1 : 1 ≤ self._sensorCount) :
    self._sensorCount ≤ 6 ∧
      self._delta = F32.div (F32.ofInt 2) (F32.ofInt (max ((self._sensorCount : Int) - 1) 1)) ∧
      weight self._delta 0 = F32.ofInt (-1) ∧
      (1 < self._sensorCount → weight self._delta (self._sensorCount - 1) = F32.ofInt 1) ∧
      (∀ i, i + 1 < self._sensorCount → weight self._delta i < weight self._delta (i + 1)) ∧
      (∀ i, i + 1 < self._sensorCount →
        ((weight self._delta (i + 1)).units - (weight self._delta i).units
          - self._delta.units).natAbs ≤ 2 ^ 125) ∧
      (self._sensorCount = 2 ∨ self._sensorCount = 3 ∨ self._sensorCount = 5 →
        ∀ i, i + 1 < self._sensorCount →
          (weight self._delta (i + 1)).units - (weight self._delta i).units
              = self._delta.units ∧
            F32.sub (weight self._delta (i + 1)) (weight self._delta i) = self._delta) := by
  obtain ⟨hc, hd⟩ := Reachable_WellFormed self hr
  have hd2 : self._delta = deltaOf self._sensorCount := hd (by omega)
  have hlt : self._sensorCount < 7 := by
    unfold MAX_IR_SENSORS at hc
    omega
  obtain ⟨e1, e2, e3, e4, e5⟩ := weights_enum ⟨self._sensorCount, hlt⟩ h1
  simp only at e1 e2 e3 e4 e5
  rw [hd2]
  refine ⟨hc, rfl, e1, e2, ?_, ?_, ?_⟩
  · intro i hi
    exact e3 i (by omega)
  · intro i hi
    exact e4 i (by omega)
  · intro hn i hi
    exact e5 hn i (by omega)

/-- C8 (amended) after three successful `AddSensor` calls: `_delta` is 1 and the weights
are -1, 0, 1. -/
theorem C8_weights_witness :
    (construct ⟨0⟩ 2 3 4 0 0 0).self._delta = F32.ofInt 1 ∧
      weight (construct ⟨0⟩ 2 3 4 0 0 0).self._delta 0 = F32.ofInt (-1) ∧
      weight (construct ⟨0⟩ 2 3 4 0 0 0).self._delta 1 = F32.ofInt 0 ∧
      (1 < (construct ⟨0⟩ 2 3 4 0 0 0).self._sensorCount →
        weight (construct ⟨0⟩ 2 3 4 0 0 0).self._delta
          ((construct ⟨0⟩ 2 3 4 0 0 0).self._sensorCount - 1) = F32.ofInt 1) :=
  ⟨by decide,
    (C8_weights (construct ⟨0⟩ 2 3 4 0 0 0).self (Reachable.construct ⟨0⟩ 2 3 4 0 0 0)
      (by decide)).2.2.1,
    by decide,
    (C8_weights (construct ⟨0⟩ 2 3 4 0 0 0).self (Reachable.construct ⟨0⟩ 2 3 4 0 0 0)
      (by decide)).2.2.2.1⟩

/-- In every reachable state that holds at least one sensor, `_delta` is the value
computed from the count, and it is positive. -/
theorem Reachable_delta_pos (self : IRProximityArray) (hr : Reachable self)
    (h1 : 1 ≤ self._sensorCount) :
    self._delta = deltaOf self._sensorCount ∧ F32.ofInt 0 < self._delta := by
  obtain ⟨hc, hd⟩ := Reachable_WellFormed self hr
  have hd2 : self._delta = deltaOf self._sensorCount := hd (by omega)
  have hlt : self._sensorCount < 7 := by
    unfold MAX_IR_SENSORS at hc
    omega
  have hpos : ∀ n : Fin 7, F32.ofInt 0 < deltaOf n.val := by decide
  exact ⟨hd2, hd2 ▸ hpos ⟨self._sensorCount, hlt⟩⟩

/-- C9 fails in the zero-sensor state directly after construction: with no positive pin
argument the constructor never calls `AddSensor`, so `_delta` keeps the content it had
before (here the bit pattern of 0.0); it is then neither `2.0 / max(0 - 1, 1) = 2` nor
positive. -/
theorem C9_delta_unassigned :
    (construct ⟨0⟩ 0 0 0 0 0 0).self._sensorCount = 0 ∧
      (construct ⟨0⟩ 0 0 0 0 0 0).self._delta = ⟨0⟩ ∧
      (construct ⟨0⟩ 0 0 0 0 0 0).self._delta ≠
        F32.div (F32.ofInt 2)
          (F32.ofInt (max (((construct ⟨0⟩ 0 0 0 0 0 0).self._sensorCount : Int) - 1) 1)) ∧
      ¬ (F32.ofInt 0 < (construct ⟨0⟩ 0 0 0 0 0 0).self._delta) ∧
      Reachable (construct ⟨0⟩ 0 0 0 0 0 0).self :=
  ⟨by decide, by decide, by decide, by decide, Reachable.construct ⟨0⟩ 0 0 0 0 0 0⟩

end RegistryClaims

/-! ## Frame properties and the constructor -/

section Frame

open IRProximityArray

theorem addIfPositive_self (r : Result Unit) (pin : Int) :
    (addIfPositive r pin).self = r.self.addSensors (if pin > 0 then [pin] else []) := by
  unfold addIfPositive
  by_cases hp : pin > 0
  · simp only [hp, if_true]
    rfl
  · simp only [hp, if_false]
    rfl

theorem addSensors_append (l1 l2 : List Int) :
    ∀ self : IRProximityArray, self.addSensors (l1 ++ l2) = (self.addSensors l1).addSensors l2 := by
  induction l1 with
  | nil => intro self; rfl
  | cons pin l1 ih =>
    intro self
    simp only [List.cons_append, addSensors]
    exact ih _

theorem AddSensor_lastReading (self : IRProximityArray) (pin : Int) :
    (self.AddSensor pin).self._lastReading = self._lastReading ∧
      (self.AddSensor pin).events = [] := by
  by_cases h : self._sensorCount < MAX_IR_SENSORS
  · rw [AddSensor_of_lt self pin h]
    exact ⟨rfl, rfl⟩
  · rw [AddSensor_of_not_lt self pin h]
    exact ⟨rfl, rfl⟩

theorem addSensors_lastReading (pins : List Int) :
    ∀ self : IRProximityArray, (self.addSensors pins)._lastReading = self._lastReading := by
  induction pins with
  | nil => intro self; rfl
  | cons pin pins ih =>
    intro self
    simp only [addSensors]
    rw [ih, (AddSensor_lastReading self pin).1]

/-- The constructor is the fresh object followed by `AddSensor` for the positive pin
arguments, in positional order. -/
theorem construct_self (delta0 : F32) (p1 p2 p3 p4 p5 p6 : Int) :
    (construct delta0 p1 p2 p3 p4 p5 p6).self =
      (fresh delta0).addSensors ([p1, p2, p3, p4, p5, p6].filter (fun p => decide (p > 0))) := by
  have h1 : ∀ p : Int, [p].filter (fun p => decide (p > 0)) = if p > 0 then [p] else [] := by
    intro p
    by_cases hp : p > 0
    · simp [hp]
    · simp [hp]
  have hsplit : [p1, p2, p3, p4, p5, p6] = [p1] ++ ([p2] ++ ([p3] ++ ([p4] ++ ([p5] ++ [p6])))) := rfl
  rw [hsplit]
  simp only [List.filter_append, h1, addSensors_append]
  unfold construct
  simp only [addIfPositive_self]
  rfl

/-- C11: `_lastReading` is written only by `Poll` and `Reset`: on every state whose
sensor count fits the array `Read` returns, leaves the whole object unchanged and
dispatches no event; `AddSensor` leaves `_lastReading` unchanged (and dispatches no
event) for every state and pin; and the constructor sets `_lastReading` to
`NO_DETECTION` for all pin arguments. -/
theorem C11_lastReading_frame (self : IRProximityArray) (gpio : Gpio) (pin : Int)
    (delta0 : F32) (p1 p2 p3 p4 p5 p6 : Int) :
    (self._sensorCount ≤ MAX_IR_SENSORS →
        ∃ r, self.Read gpio = some r ∧ r.self = self ∧ r.events = []) ∧
      (∀ r, self.Read gpio = some r → r.self = self ∧ r.events = []) ∧
      ((self.AddSensor pin).self._lastReading = self._lastReading ∧
        (self.AddSensor pin).events = []) ∧
      (construct delta0 p1 p2 p3 p4 p5 p6).self._lastReading = NO_DETECTION := by
  refine ⟨fun hc => ⟨_, Read_eq self gpio hc, rfl, rfl⟩, ?_, AddSensor_lastReading self pin, ?_⟩
  · intro r hr
    exact ⟨(Read_self self gpio r hr).1, (Read_self self gpio r hr).2.1⟩
  · rw [construct_self, addSensors_lastReading]
    rfl

/-- C11 on an object with three sensors (pins 2, 3, 4) after a `Poll` that stored the
reading 1: `Read` under another input (nothing triggered) leaves the object, and with it
`_lastReading = 1`, as it is. -/
theorem C11_lastReading_frame_witness :
    ∃ r, Read { (construct ⟨0⟩ 2 3 4 0 0 0).self with _lastReading := F32.ofInt 1 }
        (fun _ => Level.HIGH) = some r ∧
      r.self = { (construct ⟨0⟩ 2 3 4 0 0 0).self with _lastReading := F32.ofInt 1 } ∧
      r.events = [] :=
  (C11_lastReading_frame { (construct ⟨0⟩ 2 3 4 0 0 0).self with _lastReading := F32.ofInt 1 }
    (fun _ => Level.HIGH) 0 ⟨0⟩ 0 0 0 0 0 0).1 (by decide)

/-- The sensor count after a sequence of `AddSensor` calls: calls beyond the capacity
fail. -/
theorem addSensors_sensorCount_min (pins : List Int) :
    ∀ self : IRProximityArray, self._sensorCount ≤ MAX_IR_SENSORS →
      (self.addSensors pins)._sensorCount =
        min (self._sensorCount + pins.length) MAX_IR_SENSORS := by
  induction pins with
  | nil =>
    intro self hc
    simp only [addSensors, List.length_nil, Nat.add_zero]
    omega
  | cons pin pins ih =>
    intro self hc
    simp only [addSensors, List.length_cons]
    by_cases hlt : self._sensorCount < MAX_IR_SENSORS
    · have hstep : (self.AddSensor pin).self._sensorCount = self._sensorCount + 1 := by
        rw [AddSensor_of_lt self pin hlt]
      rw [ih _ (by rw [hstep]; omega), hstep]
      omega
    · have hstep : (self.AddSensor pin).self._sensorCount = self._sensorCount := by
        rw [AddSensor_of_not_lt self pin hlt]
      rw [ih _ (by rw [hstep]; exact hc), hstep]
      omega

/-- The slots after a sequence of `AddSensor` calls: the slots below the old count and
those never reached keep their content, and the slot `count + j` holds the `j`-th pin,
converted to `uint8_t`. -/
theorem addSensors_sensors (pins : List Int) :
    ∀ (self : IRProximityArray) (i : Nat) (h : i < MAX_IR_SENSORS),
      (self.addSensors pins)._sensors ⟨i, h⟩ =
        if i < self._sensorCount then self._sensors ⟨i, h⟩
        else if i < self._sensorCount + pins.length then
          toUInt8 (pins.getD (i - self._sensorCount) 0)
        else self._sensors ⟨i, h⟩ := by
  induction pins with
  | nil =>
    intro self i h
    by_cases h1 : i < self._sensorCount
    · simp [addSensors, h1]
    · simp [addSensors, h1]
  | cons pin pins ih =>
    intro self i h
    simp only [addSensors, List.length_cons]
    by_cases hlt : self._sensorCount < MAX_IR_SENSORS
    · have hstep : (self.AddSensor pin).self._sensorCount = self._sensorCount + 1 := by
        rw [AddSensor_of_lt self pin hlt]
      have hsens : (self.AddSensor pin).self._sensors =
          Function.update self._sensors ⟨self._sensorCount, hlt⟩ (toUInt8 pin) := by
        rw [AddSensor_of_lt self pin hlt]
      rw [ih, hstep, hsens]
      by_cases h1 : i < self._sensorCount
      · have hne : (⟨i, h⟩ : Fin MAX_IR_SENSORS) ≠ ⟨self._sensorCount, hlt⟩ := by
          intro he
          have := congrArg Fin.val he
          simp only at this
          omega
        simp only [h1, if_true, show i < self._sensorCount + 1 by omega,
          Function.update_noteq hne]
      · by_cases h2 : i = self._sensorCount
        · subst h2
          simp
        · have hne : (⟨i, h⟩ : Fin MAX_IR_SENSORS) ≠ ⟨self._sensorCount, hlt⟩ := by
            intro he
            have := congrArg Fin.val he
            simp only at this
            omega
          have h3 : ¬ i < self._sensorCount + 1 := by omega
          have h4 : i - self._sensorCount = (i - (self._sensorCount + 1)) + 1 := by omega
          have h5 : (i < self._sensorCount + 1 + pins.length) ↔
              (i < self._sensorCount + (pins.length + 1)) := by omega
          simp only [h1, h3, if_false, Function.update_noteq hne, h5]
          rw [h4, List.getD_cons_succ]
    · have hstep : (self.AddSensor pin).self._sensorCount = self._sensorCount := by
        rw [AddSensor_of_not_lt self pin hlt]
      have hsens : (self.AddSensor pin).self._sensors = self._sensors := by
        rw [AddSensor_of_not_lt self pin hlt]
      have h1 : i < self._sensorCount := by omega
      rw [ih, hstep, hsens]
      simp only [h1, if_true]

/-- C14: for all six pin arguments the constructor produces the state obtained from
the empty registry (count 0, `_lastReading = NO_DETECTION`) by calling `AddSensor`, in
positional order, on exactly the arguments that are `> 0`; the resulting count is the
number of positive arguments, and slot `i` holds the `i`-th positive argument (as
`uint8_t`), so the registered sensors keep their left-to-right order. -/
theorem C14_construct (delta0 : F32) (p1 p2 p3 p4 p5 p6 : Int) :
    (construct delta0 p1 p2 p3 p4 p5 p6).self =
        (fresh delta0).addSensors ([p1, p2, p3, p4, p5, p6].filter (fun p => decide (p > 0))) ∧
      ((fresh delta0)._sensorCount = 0 ∧ (fresh delta0)._lastReading = NO_DETECTION) ∧
      (construct delta0 p1 p2 p3 p4 p5 p6).self._sensorCount =
        ([p1, p2, p3, p4, p5, p6].filter (fun p => decide (p > 0))).length ∧
      ∀ (i : Nat) (h : i < MAX_IR_SENSORS),
        i < ([p1, p2, p3, p4, p5, p6].filter (fun p => decide (p > 0))).length →
        (construct delta0 p1 p2 p3 p4 p5 p6).self._sensors ⟨i, h⟩ =
          toUInt8 (([p1, p2, p3, p4, p5, p6].filter (fun p => decide (p > 0))).getD i 0) := by
  have hlen : ([p1, p2, p3, p4, p5, p6].filter (fun p => decide (p > 0))).length ≤ 6 :=
    le_trans (List.length_filter_le _ _) (le_refl _)
  refine ⟨construct_self delta0 p1 p2 p3 p4 p5 p6, ⟨rfl, rfl⟩, ?_, ?_⟩
  · rw [construct_self, addSensors_sensorCount]
    · simp [fresh]
    · simp only [fresh, Nat.zero_add]
      exact hlen
  · intro i h hi
    rw [construct_self, addSensors_sensors]
    simp only [fresh, Nat.not_lt_zero, if_false, Nat.zero_add, hi, if_true, Nat.sub_zero]

/-- C14 for the arguments 5, 0, -3, 7, 0, 9: three sensors, on the pins 5, 7 and 9 in
this order. -/
theorem C14_construct_witness :
    (construct ⟨0⟩ 5 0 (-3) 7 0 9).self = (fresh ⟨0⟩).addSensors [5, 7, 9] ∧
      (construct ⟨0⟩ 5 0 (-3) 7 0 9).self._sensorCount = 3 ∧
      (construct ⟨0⟩ 5 0 (-3) 7 0 9).self._sensors ⟨2, by decide⟩ = 9 :=
  ⟨(C14_construct ⟨0⟩ 5 0 (-3) 7 0 9).1, (C14_construct ⟨0⟩ 5 0 (-3) 7 0 9).2.2.1,
    (C14_construct ⟨0⟩ 5 0 (-3) 7 0 9).2.2.2 2 (by decide) (by decide)⟩

theorem Read_body_gpio_congr (self : IRProximityArray) (g1 g2 : Gpio)
    (hg : ∀ p, p ≠ 0 → g1 p = g2 p) : Read.body self g1 = Read.body self g2 := by
  funext acc i
  unfold Read.body
  by_cases h : i < MAX_IR_SENSORS
  · by_cases h0 : self._sensors ⟨i, h⟩ = 0
    · simp only [h, dite_true, h0, if_true]
    · simp only [h, dite_true, h0, if_false, hg _ h0]
  · simp only [h, dite_false]

/-- C15: a slot whose identifier is 0 is skipped by `Read`: two GPIO inputs that agree
on all non-zero pin numbers give the same result of `Read` on every state, and a loop
pass at a slot with identifier 0 leaves the sum and the triggered count as they are,
whatever level pin 0 reads. -/
theorem C15_zero_slot_skipped (self : IRProximityArray) (g1 g2 : Gpio)
    (hg : ∀ p, p ≠ 0 → g1 p = g2 p) :
    self.Read g1 = self.Read g2 ∧
      ∀ (i : Nat) (h : i < MAX_IR_SENSORS), self._sensors ⟨i, h⟩ = 0 →
        ∀ (gpio : Gpio) (acc : F32 × Nat),
          Read.body self gpio acc i = some acc ∧ self.triggered gpio i = false := by
  constructor
  · unfold Read
    rw [Read_body_gpio_congr self g1 g2 hg]
  · intro i h h0 gpio acc
    constructor
    · unfold Read.body
      simp only [h, dite_true, h0, if_true]
    · unfold triggered
      simp [h, h0]

/-- C15 on an object whose slots hold 2, 0, 4 (the pin 256 was stored as 0): the input
with every pin `LOW` and the input with pin 0 `HIGH` and every other pin `LOW` give the
same result. -/
theorem C15_zero_slot_skipped_witness :
    (construct ⟨0⟩ 2 256 4 0 0 0).self.Read (fun _ => Level.LOW) =
        (construct ⟨0⟩ 2 256 4 0 0 0).self.Read
          (fun p => if p = 0 then Level.HIGH else Level.LOW) ∧
      (construct ⟨0⟩ 2 256 4 0 0 0).self._sensors ⟨1, by decide⟩ = 0 :=
  ⟨(C15_zero_slot_skipped (construct ⟨0⟩ 2 256 4 0 0 0).self (fun _ => Level.LOW)
      (fun p => if p = 0 then Level.HIGH else Level.LOW)
      (fun p hp => by simp [hp])).1,
    by decide⟩

/-- C17: in every reachable state the sensor count is between 0 and 6
(`MAX_IR_SENSORS`); so every loop pass of `Read` finds its index inside the array,
`Read` and `Poll` return a result under every GPIO input (the out-of-bounds branch is
never taken), and `AddSensor` either fails with -1 or writes the slot at the old count,
which is below 6. -/
theorem C17_count_in_bounds (self : IRProximityArray) (hr : Reachable self) :
    (0 ≤ self._sensorCount ∧ self._sensorCount ≤ MAX_IR_SENSORS ∧ MAX_IR_SENSORS = 6) ∧
      (∀ (gpio : Gpio) (acc : F32 × Nat) (i : Nat), i < self._sensorCount →
        i < MAX_IR_SENSORS ∧ ∃ acc2, Read.body self gpio acc i = some acc2) ∧
      (∀ gpio : Gpio, ∃ r, self.Read gpio = some r) ∧
      (∀ (PROXIMITY_EVENT : EVENT_ID) (gpio : Gpio),
        ∃ r, self.Poll PROXIMITY_EVENT gpio = some r) ∧
      ∀ pin : Int, (self.AddSensor pin).value = -1 ∨
        ((self.AddSensor pin).value = (self._sensorCount : Int) ∧
          self._sensorCount < MAX_IR_SENSORS) := by
  have hc := (Reachable_WellFormed self hr).1
  refine ⟨⟨Nat.zero_le _, hc, rfl⟩, ?_, ?_, ?_, ?_⟩
  · intro gpio acc i hi
    have h6 : i < MAX_IR_SENSORS := lt_of_lt_of_le hi hc
    exact ⟨h6, _, Read_body_eq self gpio acc i h6⟩
  · intro gpio
    exact ⟨_, Read_eq self gpio hc⟩
  · intro pe gpio
    exact ⟨_, Poll_of_Read pe self gpio _ (Read_eq self gpio hc)⟩
  · intro pin
    by_cases h : self._sensorCount < MAX_IR_SENSORS
    · right
      rw [AddSensor_of_lt self pin h]
      exact ⟨rfl, h⟩
    · left
      rw [AddSensor_of_not_lt self pin h]

/-- C17 on the object that the constructor builds from six positive pins, after two
more `AddSensor` calls. -/
theorem C17_count_in_bounds_witness :
    ((construct ⟨0⟩ 2 3 4 5 6 7).self.addSensors [8, 9])._sensorCount ≤ MAX_IR_SENSORS ∧
      ∀ gpio : Gpio, ∃ r, ((construct ⟨0⟩ 2 3 4 5 6 7).self.addSensors [8, 9]).Read gpio = some r :=
  ⟨(C17_count_in_bounds _
      (Reachable_addSensors [8, 9] _ (Reachable.construct ⟨0⟩ 2 3 4 5 6 7))).1.2.1,
    (C17_count_in_bounds _
      (Reachable_addSensors [8, 9] _ (Reachable.construct ⟨0⟩ 2 3 4 5 6 7))).2.2.1⟩

theorem map_getD_inj (l : List Int) (f : Int → Nat) (hd : (l.map f).Nodup) (i j : Nat)
    (hi : i < l.length) (hj : j < l.length) (h : f (l.getD i 0) = f (l.getD j 0)) : i = j := by
  rw [List.getD_eq_getElem l 0 hi, List.getD_eq_getElem l 0 hj] at h
  have hi2 : i < (l.map f).length := by simpa using hi
  have hj2 : j < (l.map f).length := by simpa using hj
  have h2 : (l.map f)[i] = (l.map f)[j] := by simpa using h
  exact (List.Nodup.getElem_inj_iff hd).mp h2

/-- C18, as stated, fails: the constructor called with the pin 2 twice registers two
sensors with the same identifier (`AddSensor` compares nothing with the stored
identifiers). -/
theorem C18_duplicate_counterexample :
    (construct ⟨0⟩ 2 2 0 0 0 0).self._sensorCount = 2 ∧
      (construct ⟨0⟩ 2 2 0 0 0 0).self._sensors ⟨0, by decide⟩ =
        (construct ⟨0⟩ 2 2 0 0 0 0).self._sensors ⟨1, by decide⟩ ∧
      Reachable (construct ⟨0⟩ 2 2 0 0 0 0).self :=
  ⟨by decide, by decide, Reachable.construct ⟨0⟩ 2 2 0 0 0 0⟩

/-- C18, amended: in the state reached from the constructor by any sequence of
`AddSensor` calls, the registered identifiers at the indices `0..count-1` contain no
duplicate provided that the pins handed to `AddSensor` (the positive constructor
arguments, then the arguments of the calls) are pairwise distinct as `uint8_t` values,
that is modulo 256. -/
theorem C18_no_duplicate (delta0 : F32) (p1 p2 p3 p4 p5 p6 : Int) (calls : List Int)
    (hd : (([p1, p2, p3, p4, p5, p6].filter (fun p => decide (p > 0)) ++ calls).map
      toUInt8).Nodup) :
    ∀ (i j : Nat) (hi : i < MAX_IR_SENSORS) (hj : j < MAX_IR_SENSORS),
      i < ((construct delta0 p1 p2 p3 p4 p5 p6).self.addSensors calls)._sensorCount →
      j < ((construct delta0 p1 p2 p3 p4 p5 p6).self.addSensors calls)._sensorCount →
      ((construct delta0 p1 p2 p3 p4 p5 p6).self.addSensors calls)._sensors ⟨i, hi⟩ =
        ((construct delta0 p1 p2 p3 p4 p5 p6).self.addSensors calls)._sensors ⟨j, hj⟩ →
      i = j := by
  intro i j hi hj hci hcj heq
  rw [construct_self, ← addSensors_append] at hci hcj heq
  rw [addSensors_sensorCount_min _ _ (Nat.zero_le _)] at hci hcj
  simp only [fresh, Nat.zero_add] at hci hcj
  rw [addSensors_sensors, addSensors_sensors] at heq
  have hi2 : i < ([p1, p2, p3, p4, p5, p6].filter (fun p => decide (p > 0)) ++ calls).length := by
    omega
  have hj2 : j < ([p1, p2, p3, p4, p5, p6].filter (fun p => decide (p > 0)) ++ calls).length := by
    omega
  simp only [fresh, Nat.not_lt_zero, if_false, Nat.zero_add, hi2, hj2, if_true,
    Nat.sub_zero] at heq
  exact map_getD_inj _ toUInt8 hd i j hi2 hj2 heq

/-- C18 (amended) for the constructor arguments 2, 3, 0, 0, 0, 0 followed by
`AddSensor(4)`: three sensors, whose identifiers are pairwise different. -/
theorem C18_no_duplicate_witness :
    ((construct ⟨0⟩ 2 3 0 0 0 0).self.addSensors [4])._sensorCount = 3 ∧
      ((construct ⟨0⟩ 2 3 0 0 0 0).self.addSensors [4])._sensors ⟨0, by decide⟩ ≠
        ((construct ⟨0⟩ 2 3 0 0 0 0).self.addSensors [4])._sensors ⟨1, by decide⟩ ∧
      ((construct ⟨0⟩ 2 3 0 0 0 0).self.addSensors [4])._sensors ⟨0, by decide⟩ ≠
        ((construct ⟨0⟩ 2 3 0 0 0 0).self.addSensors [4])._sensors ⟨2, by decide⟩ ∧
      ((construct ⟨0⟩ 2 3 0 0 0 0).self.addSensors [4])._sensors ⟨1, by decide⟩ ≠
        ((construct ⟨0⟩ 2 3 0 0 0 0).self.addSensors [4])._sensors ⟨2, by decide⟩ :=
  ⟨by decide,
    fun h => absurd (C18_no_duplicate ⟨0⟩ 2 3 0 0 0 0 [4] (by decide) 0 1 (by decide) (by decide)
      (by decide) (by decide) h) (by decide),
    fun h => absurd (C18_no_duplicate ⟨0⟩ 2 3 0 0 0 0 [4] (by decide) 0 2 (by decide) (by decide)
      (by decide) (by decide) h) (by decide),
    fun h => absurd (C18_no_duplicate ⟨0⟩ 2 3 0 0 0 0 [4] (by decide) 1 2 (by decide) (by decide)
      (by decide) (by decide) h) (by decide)⟩

/-- C20: the identifier that `AddSensor` stores is the pin reduced modulo `2 ^ 8`: on a
state with room, the written slot holds `pin % 256`; for a pin from 1 to 255 that is the
pin itself; for a positive multiple of 256 it is 0, and `Read` then skips that sensor as
absent. In particular the constructor gives such a pin the index 0 (count 1), stores 0
and `Read` returns `NO_DETECTION` whatever the pins read. -/
theorem C20_identifier_mod_256 (self : IRProximityArray) (pin : Int) (delta0 : F32)
    (h : self._sensorCount < MAX_IR_SENSORS) :
    (((self.AddSensor pin).self._sensors ⟨self._sensorCount, h⟩ : Nat) : Int) = pin % 2 ^ 8 ∧
      (1 ≤ pin ∧ pin ≤ 255 →
        (((self.AddSensor pin).self._sensors ⟨self._sensorCount, h⟩ : Nat) : Int) = pin) ∧
      (0 < pin ∧ pin % 256 = 0 →
        (self.AddSensor pin).self._sensors ⟨self._sensorCount, h⟩ = 0 ∧
        (∀ gpio : Gpio, (self.AddSensor pin).self.triggered gpio self._sensorCount = false) ∧
        (construct delta0 pin 0 0 0 0 0).self._sensorCount = 1 ∧
        (construct delta0 pin 0 0 0 0 0).self._sensors ⟨0, by decide⟩ = 0 ∧
        ∀ gpio : Gpio, (construct delta0 pin 0 0 0 0 0).self.Read gpio =
          some { value := NO_DETECTION, self := (construct delta0 pin 0 0 0 0 0).self,
                 events := [], pinModes := [] }) := by
  have hmod : ((toUInt8 pin : Nat) : Int) = pin % 256 := by
    unfold toUInt8
    omega
  have hslot : (self.AddSensor pin).self._sensors ⟨self._sensorCount, h⟩ = toUInt8 pin := by
    rw [AddSensor_of_lt self pin h]
    simp only [Function.update_same]
  refine ⟨?_, ?_, ?_⟩
  · rw [hslot, hmod]
    norm_num
  · intro hp
    rw [hslot, hmod]
    omega
  · intro hp
    have hz : toUInt8 pin = 0 := by
      have := hmod
      omega
    have hpos : pin > 0 := hp.1
    have hcs : (construct delta0 pin 0 0 0 0 0).self = ((fresh delta0).AddSensor pin).self := by
      rw [construct_self]
      simp [hpos, addSensors]
    have hf : (fresh delta0)._sensorCount < MAX_IR_SENSORS := by
      simp [fresh, MAX_IR_SENSORS]
    have hc1 : (construct delta0 pin 0 0 0 0 0).self._sensorCount = 1 := by
      rw [hcs, AddSensor_of_lt _ pin hf]
      rfl
    have hs0 : ∀ (i : Nat) (hi : i < MAX_IR_SENSORS),
        (construct delta0 pin 0 0 0 0 0).self._sensors ⟨i, hi⟩ = 0 := by
      intro i hi
      rw [hcs, AddSensor_of_lt _ pin hf]
      simp only [fresh, hz]
      by_cases h0 : (⟨i, hi⟩ : Fin MAX_IR_SENSORS) = ⟨0, hf⟩
      · rw [h0, Function.update_same]
      · rw [Function.update_noteq h0]
    refine ⟨by rw [hslot, hz], ?_, hc1, hs0 0 (by decide), ?_⟩
    · intro gpio
      unfold triggered
      simp [h, hslot, hz]
    · intro gpio
      have hn : ∀ i, i < (construct delta0 pin 0 0 0 0 0).self._sensorCount →
          (construct delta0 pin 0 0 0 0 0).self.triggered gpio i = false := by
        intro i hi
        have hi6 : i < MAX_IR_SENSORS := by
          rw [hc1] at hi
          exact lt_of_lt_of_le hi (by decide)
        unfold triggered
        simp [hi6, hs0 i hi6]
      rw [Read_eq _ gpio (by rw [hc1]; decide), triggeredIndices_eq_nil _ gpio hn]
      simp

/-- C20 on an empty registry: the pin 7 is stored as 7, and the pin 256 is stored as 0,
gets the index 0 from the constructor and is skipped by `Read`. -/
theorem C20_identifier_mod_256_witness :
    (((fresh ⟨0⟩).AddSensor 7).self._sensors ⟨0, by decide⟩ = 7 ∧
      ((fresh ⟨0⟩).AddSensor 256).self._sensors ⟨0, by decide⟩ = 0) ∧
      (0 < (256 : Int) ∧ (256 : Int) % 256 = 0 →
        ((fresh ⟨0⟩).AddSensor 256).self._sensors ⟨(fresh ⟨0⟩)._sensorCount, by decide⟩ = 0 ∧
        (∀ gpio : Gpio,
          ((fresh ⟨0⟩).AddSensor 256).self.triggered gpio (fresh ⟨0⟩)._sensorCount = false) ∧
        (construct ⟨0⟩ 256 0 0 0 0 0).self._sensorCount = 1 ∧
        (construct ⟨0⟩ 256 0 0 0 0 0).self._sensors ⟨0, by decide⟩ = 0 ∧
        ∀ gpio : Gpio, (construct ⟨0⟩ 256 0 0 0 0 0).self.Read gpio =
          some { value := NO_DETECTION, self := (construct ⟨0⟩ 256 0 0 0 0 0).self,
                 events := [], pinModes := [] }) :=
  ⟨⟨by decide, by decide⟩, (C20_identifier_mod_256 (fresh ⟨0⟩) 256 ⟨0⟩ (by decide)).2.2⟩

end Frame

/-! ## Particular trigger patterns -/

section Patterns

open IRProximityArray

theorem filter_range_all (p : Nat → Bool) (n : Nat) (hp : ∀ i, i < n → p i = true) :
    (List.range n).filter p = List.range n := by
  rw [List.filter_eq_self]
  intro i hi
  exact hp i (List.mem_range.mp hi)

theorem filter_range_none (p : Nat → Bool) (n : Nat) (hp : ∀ i, i < n → p i = false) :
    (List.range n).filter p = [] := by
  rw [List.filter_eq_nil_iff]
  intro i hi
  simp [hp i (List.mem_range.mp hi)]

theorem filter_range_single (p : Nat → Bool) (k : Nat) :
    ∀ n, k < n → p k = true → (∀ i, i < n → i ≠ k → p i = false) →
      (List.range n).filter p = [k] := by
  intro n
  induction n with
  | zero => intro hk; omega
  | succ n ih =>
    intro hk hpk hp
    rw [List.range_succ, List.filter_append]
    by_cases hkn : k = n
    · subst hkn
      rw [filter_range_none p k (fun i hi => hp i (by omega) (by omega))]
      simp [hpk]
    · rw [ih (by omega) hpk (fun i hi hne => hp i (by omega) hne)]
      have hn : p n = false := hp n (by omega) (fun h => hkn h.symm)
      simp [hn]

theorem triggered_iff (self : IRProximityArray) (gpio : Gpio) (i : Nat)
    (h : i < MAX_IR_SENSORS) :
    self.triggered gpio i = true ↔
      (self._sensors ⟨i, h⟩ ≠ 0 ∧ gpio (self._sensors ⟨i, h⟩) = Level.LOW) := by
  unfold triggered
  simp only [h, dite_true, decide_eq_true_eq]

/-- The float mean of all `n` weights, for every sensor count, by evaluation. -/
theorem mean_all_enum :
    averageWeight (deltaOf 1) (List.range 1) = F32.ofInt (-1) ∧
      averageWeight (deltaOf 2) (List.range 2) = F32.ofInt 0 ∧
      averageWeight (deltaOf 3) (List.range 3) = F32.ofInt 0 ∧
      averageWeight (deltaOf 4) (List.range 4) = ⟨((2 ^ 124 : Nat) : Int)⟩ ∧
      averageWeight (deltaOf 5) (List.range 5) = F32.ofInt 0 ∧
      averageWeight (deltaOf 6) (List.range 6) = ⟨((0xAAAAAB * 2 ^ 100 : Nat) : Int)⟩ := by
  set_option maxRecDepth 1000000 in decide

/-- C12, as stated, fails: with four sensors, all triggered, `Read` does not return 0 but
`2 ^ (-25)`. The four `float` weights are -1, `_delta - 1`, `2 * _delta - 1` and 1 with
`_delta` = 2/3 rounded up, so they are not symmetric about 0: already their exact sum is
`2 ^ (-24)` (`2 ^ 125` units), not 0. -/
theorem C12_mean_counterexample :
    (construct ⟨0⟩ 2 3 4 5 0 0).self._sensorCount = 4 ∧
      (construct ⟨0⟩ 2 3 4 5 0 0).self.triggeredIndices (fun _ => Level.LOW) = [0, 1, 2, 3] ∧
      Option.map Result.value ((construct ⟨0⟩ 2 3 4 5 0 0).self.Read (fun _ => Level.LOW)) =
        some ⟨((2 ^ 124 : Nat) : Int)⟩ ∧
      Option.map Result.value ((construct ⟨0⟩ 2 3 4 5 0 0).self.Read (fun _ => Level.LOW)) ≠
        some (F32.ofInt 0) ∧
      (weight (construct ⟨0⟩ 2 3 4 5 0 0).self._delta 0).units
          + (weight (construct ⟨0⟩ 2 3 4 5 0 0).self._delta 1).units
          + (weight (construct ⟨0⟩ 2 3 4 5 0 0).self._delta 2).units
          + (weight (construct ⟨0⟩ 2 3 4 5 0 0).self._delta 3).units
        = ((2 ^ 125 : Nat) : Int) := by
  set_option maxRecDepth 1000000 in decide

/-- C12, amended: in every reachable state with `n` sensors (1 to 6) whose identifiers are
all non-zero, when all `n` sensors are triggered `Read` returns the `float` mean of all `n`
weights; that mean is exactly 0 for `n` = 2, 3, 5, it is -1 (the single weight) for
`n = 1`, and for `n` = 4 and 6, where `_delta` is rounded, it is a small positive number:
`2 ^ (-25)` and `0xAAAAAB * 2 ^ (-49)`. -/
theorem C12_all_triggered (self : IRProximityArray) (gpio : Gpio) (hr : Reachable self)
    (h1 : 1 ≤ self._sensorCount)
    (hall : ∀ (i : Nat) (h : i < MAX_IR_SENSORS), i < self._sensorCount →
      self._sensors ⟨i, h⟩ ≠ 0 ∧ gpio (self._sensors ⟨i, h⟩) = Level.LOW) :
    self.Read gpio = some
        { value := averageWeight (deltaOf self._sensorCount) (List.range self._sensorCount)
          self := self, events := [], pinModes := [] } ∧
      (self._sensorCount = 1 →
        averageWeight (deltaOf self._sensorCount) (List.range self._sensorCount)
          = F32.ofInt (-1)) ∧
      (self._sensorCount = 2 ∨ self._sensorCount = 3 ∨ self._sensorCount = 5 →
        averageWeight (deltaOf self._sensorCount) (List.range self._sensorCount)
          = F32.ofInt 0) ∧
      (self._sensorCount = 4 →
        averageWeight (deltaOf self._sensorCount) (List.range self._sensorCount)
          = ⟨((2 ^ 124 : Nat) : Int)⟩) ∧
      (self._sensorCount = 6 →
        averageWeight (deltaOf self._sensorCount) (List.range self._sensorCount)
          = ⟨((0xAAAAAB * 2 ^ 100 : Nat) : Int)⟩) := by
  obtain ⟨hc, hd⟩ := Reachable_WellFormed self hr
  have hd2 : self._delta = deltaOf self._sensorCount := hd (by omega)
  have htrig : self.triggeredIndices gpio = List.range self._sensorCount := by
    unfold triggeredIndices
    apply filter_range_all
    intro i hi
    have h6 : i < MAX_IR_SENSORS := lt_of_lt_of_le hi hc
    exact (triggered_iff self gpio i h6).mpr (hall i h6 hi)
  have hne : self.triggeredIndices gpio ≠ [] := by
    rw [htrig]
    intro h0
    have hlen := congrArg List.length h0
    simp only [List.length_range, List.length_nil] at hlen
    omega
  have hread := Read_of_triggered self gpio hc hd2 hne
  rw [htrig] at hread
  obtain ⟨m1, m2, m3, m4, m5, m6⟩ := mean_all_enum
  refine ⟨hread, ?_, ?_, ?_, ?_⟩
  · intro hn
    rw [hn]
    exact m1
  · intro hn
    rcases hn with hn | hn | hn
    · rw [hn]
      exact m2
    · rw [hn]
      exact m3
    · rw [hn]
      exact m5
  · intro hn
    rw [hn]
    exact m4
  · intro hn
    rw [hn]
    exact m6

/-- C12 (amended) at three sensors (pins 2, 3, 4), all triggered: the reading is 0. -/
theorem C12_all_triggered_witness :
    (construct ⟨0⟩ 2 3 4 0 0 0).self.Read (fun _ => Level.LOW) = some
        { value := averageWeight (deltaOf (construct ⟨0⟩ 2 3 4 0 0 0).self._sensorCount)
            (List.range (construct ⟨0⟩ 2 3 4 0 0 0).self._sensorCount)
          self := (construct ⟨0⟩ 2 3 4 0 0 0).self, events := [], pinModes := [] } ∧
      averageWeight (deltaOf (construct ⟨0⟩ 2 3 4 0 0 0).self._sensorCount)
          (List.range (construct ⟨0⟩ 2 3 4 0 0 0).self._sensorCount) = F32.ofInt 0 :=
  ⟨(C12_all_triggered (construct ⟨0⟩ 2 3 4 0 0 0).self (fun _ => Level.LOW)
      (Reachable.construct ⟨0⟩ 2 3 4 0 0 0) (by decide) (by decide)).1,
    (C12_all_triggered (construct ⟨0⟩ 2 3 4 0 0 0).self (fun _ => Level.LOW)
      (Reachable.construct ⟨0⟩ 2 3 4 0 0 0) (by decide) (by decide)).2.2.1
      (Or.inr (Or.inl (by decide)))⟩

/-- The average over a single index is the weight of that index, for every count up to
six and every index below it, by evaluation. -/
theorem mean_single_enum : ∀ n : Fin 7, ∀ k : Fin 6, k.val < n.val →
    averageWeight (deltaOf n.val) [k.val] = weight (deltaOf n.val) k.val := by
  set_option maxRecDepth 1000000 in decide

/-- C13: in every reachable state with `n` sensors (1 to 6), if the sensor at index
`k < n` is the only one triggered, `Read` returns exactly that sensor's weight
`k * (2/max(n-1,1)) - 1` (the `float` expression of the source). -/
theorem C13_single_triggered (self : IRProximityArray) (gpio : Gpio) (k : Nat)
    (hr : Reachable self) (hk : k < self._sensorCount)
    (htk : ∀ h : k < MAX_IR_SENSORS,
      self._sensors ⟨k, h⟩ ≠ 0 ∧ gpio (self._sensors ⟨k, h⟩) = Level.LOW)
    (hothers : ∀ (i : Nat) (h : i < MAX_IR_SENSORS), i < self._sensorCount → i ≠ k →
      ¬ (self._sensors ⟨i, h⟩ ≠ 0 ∧ gpio (self._sensors ⟨i, h⟩) = Level.LOW)) :
    self.Read gpio = some
        { value :=
            F32.sub
              (F32.mul (F32.ofInt (k : Int))
                (F32.div (F32.ofInt 2) (F32.ofInt (max ((self._sensorCount : Int) - 1) 1))))
              (F32.ofInt 1)
          self := self, events := [], pinModes := [] } := by
  obtain ⟨hc, hd⟩ := Reachable_WellFormed self hr
  have hd2 : self._delta = deltaOf self._sensorCount := hd (by omega)
  have hk6 : k < MAX_IR_SENSORS := lt_of_lt_of_le hk hc
  have htrig : self.triggeredIndices gpio = [k] := by
    unfold triggeredIndices
    apply filter_range_single _ k _ hk ((triggered_iff self gpio k hk6).mpr (htk hk6))
    intro i hi hne
    have h6 : i < MAX_IR_SENSORS := lt_of_lt_of_le hi hc
    have hnot := hothers i h6 hi hne
    cases hb : self.triggered gpio i with
    | false => rfl
    | true => exact absurd ((triggered_iff self gpio i h6).mp hb) hnot
  have hread := Read_of_triggered self gpio hc hd2 (by rw [htrig]; simp)
  rw [htrig] at hread
  have hn7 : self._sensorCount < 7 := by
    unfold MAX_IR_SENSORS at hc
    omega
  have henum := mean_single_enum ⟨self._sensorCount, hn7⟩ ⟨k, hk6⟩ hk
  simp only at henum
  rw [hread, henum]
  rfl

/-- C13 at three sensors (pins 2, 3, 4): only index 1 triggered gives 0, only index 2
triggered gives 1; and at one sensor (pin 2), triggered, the reading is -1. -/
theorem C13_single_triggered_witness :
    ((construct ⟨0⟩ 2 3 4 0 0 0).self.Read
        (fun pin => if pin = 3 then Level.LOW else Level.HIGH) =
      some { value := F32.ofInt 0, self := (construct ⟨0⟩ 2 3 4 0 0 0).self, events := [],
             pinModes := [] }) ∧
      ((construct ⟨0⟩ 2 3 4 0 0 0).self.Read
          (fun pin => if pin = 4 then Level.LOW else Level.HIGH) =
        some { value := F32.ofInt 1, self := (construct ⟨0⟩ 2 3 4 0 0 0).self, events := [],
               pinModes := [] }) ∧
      ((construct ⟨0⟩ 2 0 0 0 0 0).self.Read (fun _ => Level.LOW) =
        some { value := F32.ofInt (-1), self := (construct ⟨0⟩ 2 0 0 0 0 0).self, events := [],
               pinModes := [] }) :=
  ⟨(C13_single_triggered (construct ⟨0⟩ 2 3 4 0 0 0).self
      (fun pin => if pin = 3 then Level.LOW else Level.HIGH) 1
      (Reachable.construct ⟨0⟩ 2 3 4 0 0 0) (by decide) (by decide) (by decide)).trans (by rfl),
    (C13_single_triggered (construct ⟨0⟩ 2 3 4 0 0 0).self
      (fun pin => if pin = 4 then Level.LOW else Level.HIGH) 2
      (Reachable.construct ⟨0⟩ 2 3 4 0 0 0) (by decide) (by decide) (by decide)).trans (by rfl),
    (C13_single_triggered (construct ⟨0⟩ 2 0 0 0 0 0).self (fun _ => Level.LOW) 0
      (Reachable.construct ⟨0⟩ 2 0 0 0 0 0) (by decide) (by decide) (by decide)).trans (by rfl)⟩

end Patterns

/-! ## The documented value range, and the sequence of events -/

section Events

open IRProximityArray

/-- C16: the header comment describes the detection value as a signed 16-bit integer with
-32767 for far-left, +32767 for far-right, 0 for straight ahead and `NO_DETECTION` =
-32678; the code computes something else. With three sensors, `Read` returns -1 when
only the left-most sensor is triggered and +1 when only the right-most one is, (0 when
only the middle one is), `NO_DETECTION` is -99, and with four sensors of which only the
second is triggered the value lies strictly between -1 and 0, so it is no integer. -/
theorem C16_value_range :
    Option.map Result.value ((construct ⟨0⟩ 2 3 4 0 0 0).self.Read
        (fun pin => if pin = 2 then Level.LOW else Level.HIGH)) = some (F32.ofInt (-1)) ∧
      F32.ofInt (-1) ≠ F32.ofInt (-32767) ∧
      Option.map Result.value ((construct ⟨0⟩ 2 3 4 0 0 0).self.Read
        (fun pin => if pin = 4 then Level.LOW else Level.HIGH)) = some (F32.ofInt 1) ∧
      F32.ofInt 1 ≠ F32.ofInt 32767 ∧
      Option.map Result.value ((construct ⟨0⟩ 2 3 4 0 0 0).self.Read
        (fun pin => if pin = 3 then Level.LOW else Level.HIGH)) = some (F32.ofInt 0) ∧
      Option.map Result.value ((construct ⟨0⟩ 2 3 4 0 0 0).self.Read (fun _ => Level.HIGH)) =
        some NO_DETECTION ∧
      NO_DETECTION = F32.ofInt (-99) ∧ NO_DETECTION ≠ F32.ofInt (-32678) ∧
      (∃ v, Option.map Result.value ((construct ⟨0⟩ 2 3 4 5 0 0).self.Read
          (fun pin => if pin = 3 then Level.LOW else Level.HIGH)) = some v ∧
        F32.ofInt (-1) < v ∧ v < F32.ofInt 0) := by
  refine ⟨by decide, by decide, by decide, by decide, by decide, by decide, rfl, by decide,
    ⟨⟨-((5592405 * 2 ^ 125 : Nat) : Int)⟩, ?_, ?_, ?_⟩⟩
  · set_option maxRecDepth 1000000 in decide
  · set_option maxRecDepth 1000000 in decide
  · set_option maxRecDepth 1000000 in decide

theorem lastPayload_concat (events : List Event) (e : Event) :
    lastPayload (events ++ [e]) = e.value := by
  unfold lastPayload
  rw [List.getLast?_concat]

theorem traceInv_Poll (PROXIMITY_EVENT : EVENT_ID) (st : IRProximityArray × List Event)
    (gpio : Gpio) (hinv : traceInv PROXIMITY_EVENT st) :
    ∃ st2, call PROXIMITY_EVENT st (Call.Poll gpio) = some st2 ∧
      traceInv PROXIMITY_EVENT st2 := by
  obtain ⟨hr, hlast, hchain, hhead, hid⟩ := hinv
  have hc := (Reachable_WellFormed st.1 hr).1
  obtain ⟨rd, hread⟩ : ∃ rd, st.1.Read gpio = some rd := ⟨_, Read_eq st.1 gpio hc⟩
  have hpoll := Poll_of_Read PROXIMITY_EVENT st.1 gpio rd hread
  by_cases heq : rd.value = st.1._lastReading
  · rw [if_neg (not_not.mpr heq)] at hpoll
    simp only [call, hpoll, Option.map_some', List.append_nil]
    exact ⟨_, rfl, hr, hlast, hchain, hhead, hid⟩
  · rw [if_pos heq] at hpoll
    have hr2 := Reachable.poll PROXIMITY_EVENT gpio _ hr hpoll
    simp only [call, hpoll, Option.map_some']
    refine ⟨_, rfl, hr2, ?_, ?_, ?_, ?_⟩
    · show rd.value = lastPayload (st.2 ++ [{ id := PROXIMITY_EVENT, value := rd.value }])
      rw [lastPayload_concat]
    · rw [List.chain'_append]
      refine ⟨hchain, List.chain'_singleton _, ?_⟩
      intro x hx y hy
      simp only [List.head?_cons, Option.mem_def, Option.some.injEq] at hy
      subst hy
      simp only [Option.mem_def] at hx
      intro hxy
      apply heq
      rw [hlast]
      unfold lastPayload
      rw [hx]
      exact hxy.symm
    · intro e he
      cases hev : st.2 with
      | nil =>
        rw [hev] at hlast
        simp only [hev, List.nil_append, List.head?_cons, Option.some.injEq] at he
        subst he
        intro hnd
        apply heq
        rw [hlast]
        exact hnd
      | cons a l =>
        simp only [hev, List.cons_append, List.head?_cons, Option.some.injEq] at he
        subst he
        exact hhead _ (by rw [hev]; rfl)
    · intro e he
      simp only [List.mem_append, List.mem_singleton] at he
      rcases he with he | he
      · exact hid e he
      · rw [he]

theorem traceInv_call (PROXIMITY_EVENT : EVENT_ID) (st : IRProximityArray × List Event)
    (c : Call) (hinv : traceInv PROXIMITY_EVENT st) :
    ∃ st2, call PROXIMITY_EVENT st c = some st2 ∧ traceInv PROXIMITY_EVENT st2 := by
  cases c with
  | Poll gpio => exact traceInv_Poll PROXIMITY_EVENT st gpio hinv
  | Read gpio =>
    obtain ⟨hr, hlast, hchain, hhead, hid⟩ := hinv
    have hc := (Reachable_WellFormed st.1 hr).1
    simp only [call, Read_eq st.1 gpio hc, Option.map_some', List.append_nil]
    exact ⟨_, rfl, hr, hlast, hchain, hhead, hid⟩
  | AddSensor pin =>
    obtain ⟨hr, hlast, hchain, hhead, hid⟩ := hinv
    obtain ⟨h1, h2⟩ := AddSensor_lastReading st.1 pin
    simp only [call, h2, List.append_nil]
    exact ⟨_, rfl, Reachable.addSensor pin hr, h1.trans hlast, hchain, hhead, hid⟩

theorem traceInv_runCalls (PROXIMITY_EVENT : EVENT_ID) (calls : List Call) :
    ∀ st : IRProximityArray × List Event, traceInv PROXIMITY_EVENT st →
      ∃ st2, runCalls PROXIMITY_EVENT st calls = some st2 ∧ traceInv PROXIMITY_EVENT st2 := by
  induction calls with
  | nil =>
    intro st hinv
    exact ⟨st, rfl, hinv⟩
  | cons c cs ih =>
    intro st hinv
    obtain ⟨st1, h1, hinv1⟩ := traceInv_call PROXIMITY_EVENT st c hinv
    obtain ⟨st2, h2, hinv2⟩ := ih st1 hinv1
    refine ⟨st2, ?_, hinv2⟩
    unfold runCalls at h2 ⊢
    rw [List.foldlM_cons, h1]
    exact h2

/-- C19: start from a freshly constructed object (any pin arguments) with no event
dispatched, and make any sequence of `Poll`, `Read` and `AddSensor` calls under
arbitrary GPIO inputs, without `Reset`. The calls all return; in the list of dispatched
events no two consecutive payloads are equal and the first payload, if any, is not
`NO_DETECTION`; `_lastReading` is the payload of the most recent event, or
`NO_DETECTION` if there was none; and after every `Poll`, in whatever state, `_lastReading`
is the value that `Read` returned in it. -/
theorem C19_event_sequence (PROXIMITY_EVENT : EVENT_ID) (delta0 : F32)
    (p1 p2 p3 p4 p5 p6 : Int) (calls : List Call) :
    (∃ s events,
        runCalls PROXIMITY_EVENT ((construct delta0 p1 p2 p3 p4 p5 p6).self, []) calls
          = some (s, events) ∧
        List.Chain' (fun a b => a.value ≠ b.value) events ∧
        (∀ e, events.head? = some e → e.value ≠ NO_DETECTION) ∧
        s._lastReading = lastPayload events ∧
        ∀ e ∈ events, e.id = PROXIMITY_EVENT) ∧
      ∀ (self : IRProximityArray) (gpio : Gpio) (rd : Result F32) (r : Result Unit),
        self.Read gpio = some rd → self.Poll PROXIMITY_EVENT gpio = some r →
        r.self._lastReading = rd.value := by
  constructor
  · have h0 : traceInv PROXIMITY_EVENT ((construct delta0 p1 p2 p3 p4 p5 p6).self, []) := by
      refine ⟨Reachable.construct delta0 p1 p2 p3 p4 p5 p6, ?_, List.chain'_nil, ?_, ?_⟩
      · simp only [lastPayload, List.getLast?_nil]
        rw [construct_self, addSensors_lastReading]
        rfl
      · intro e he
        simp at he
      · intro e he
        simp at he
    obtain ⟨st2, hrun, hr, hlast, hchain, hhead, hid⟩ :=
      traceInv_runCalls PROXIMITY_EVENT calls _ h0
    exact ⟨st2.1, st2.2, hrun, hchain, hhead, hlast, hid⟩
  · intro self gpio rd r hrd hp
    rw [Poll_of_Read PROXIMITY_EVENT self gpio rd hrd] at hp
    simp only [Option.some.injEq] at hp
    subst hp
    by_cases hne : rd.value = self._lastReading
    · simp [hne]
    · simp [hne]

/-- C19 on an object with three sensors (pins 2, 3, 4) and the event identifier 7: `Poll`
twice with only pin 4 `LOW`, a `Read`, `AddSensor(9)`, `Poll` again with only pin 4 `LOW`
and `Poll` with every pin `HIGH`. Three events are dispatched, with the payloads 1,
`2 * _delta - 1` for four sensors and `NO_DETECTION`. -/
theorem C19_event_sequence_witness :
    (∃ s events,
        runCalls 7 ((construct ⟨0⟩ 2 3 4 0 0 0).self, [])
            [Call.Poll (fun pin => if pin = 4 then Level.LOW else Level.HIGH),
              Call.Poll (fun pin => if pin = 4 then Level.LOW else Level.HIGH),
              Call.Read (fun _ => Level.LOW),
              Call.AddSensor 9,
              Call.Poll (fun pin => if pin = 4 then Level.LOW else Level.HIGH),
              Call.Poll (fun _ => Level.HIGH)]
          = some (s, events) ∧
        List.Chain' (fun a b => a.value ≠ b.value) events ∧
        (∀ e, events.head? = some e → e.value ≠ NO_DETECTION) ∧
        s._lastReading = lastPayload events ∧
        ∀ e ∈ events, e.id = 7) ∧
      Option.map Prod.snd
          (runCalls 7 ((construct ⟨0⟩ 2 3 4 0 0 0).self, [])
            [Call.Poll (fun pin => if pin = 4 then Level.LOW else Level.HIGH),
              Call.Poll (fun pin => if pin = 4 then Level.LOW else Level.HIGH),
              Call.Read (fun _ => Level.LOW),
              Call.AddSensor 9,
              Call.Poll (fun pin => if pin = 4 then Level.LOW else Level.HIGH),
              Call.Poll (fun _ => Level.HIGH)])
        = some [{ id := 7, value := F32.ofInt 1 },
            { id := 7, value := ⟨((5592406 * 2 ^ 125 : Nat) : Int)⟩ },
            { id := 7, value := NO_DETECTION }] :=
  ⟨(C19_event_sequence 7 ⟨0⟩ 2 3 4 0 0 0
      [Call.Poll (fun pin => if pin = 4 then Level.LOW else Level.HIGH),
        Call.Poll (fun pin => if pin = 4 then Level.LOW else Level.HIGH),
        Call.Read (fun _ => Level.LOW),
        Call.AddSensor 9,
        Call.Poll (fun pin => if pin = 4 then Level.LOW else Level.HIGH),
        Call.Poll (fun _ => Level.HIGH)]).1,
    by set_option maxRecDepth 1000000 in decide⟩

end Events
